import Mathlib

/-!
Verification of the Lors repository (a Lox implementation in Rust) against its
natural-language specification.

The development shallowly embeds the parts of the source that the claims
touch:

* the runtime data model of the tree-walking interpreter
  (`src/interpreter/ast.rs`): tokens, literals, expressions, statements,
  runtime functions / classes / instances;
* the operator kernel (`src/operators.rs`);
* the interpreter itself (`src/interpreter/visitors/interpreter.rs`), with the
  shared `Rc<RefCell<Environment>>` graph modelled as an arena of frames
  indexed by allocation order, and `println!` output collected in a list;
* the resolver (`src/visitors/resolver.rs`);
* the `for` desugaring of the recursive-descent parser (`src/parser.rs`);
* the bytecode VM (`src/compiler/vm.rs`, `src/compiler/value.rs`).

Machine floats (`OrderedFloat<f64>`) are modelled as exact rationals `Rat`;
every concrete number appearing in a theorem below is a small integer, on
which `f64` arithmetic coincides with the exact arithmetic.  Rust panics
(`unwrap`, `panic!`, `unreachable!`, the `extract_enum_value!` macro) are
modelled as a distinguished `panicked` outcome that propagates without
running any of the cleanup the non-panicking paths would run, mirroring
process abort.  Evaluation is driven by a fuel parameter; exhaustion is the
distinguished outcome `fuel` (a divergence marker, never an error).
-/

namespace Lors

/-- Token kinds.  Modelled from the spec: the lexer (`interpreter/lexer.rs`)
is not part of the sources, and §4.1 of the spec pins the token categories:
single/double punctuation, literals, identifiers, the fixed reserved-word
set, and `Eof`.  The passes embedded below consult only `lexeme` (and the
parser desugaring takes already-parsed components), so only the categories
needed by concrete programs are listed. -/
inductive TokenType where
  | identifier
  | number
  | strTok
  | leftParen
  | rightParen
  | keyword (word : String)
  | eof
deriving DecidableEq, Repr

/-- Literal payload of a token.  Modelled from the spec (§3 "Token"):
an optional number or string payload. -/
inductive TokenLiteral where
  | number (n : Rat)
  | str (s : String)
deriving DecidableEq, Repr

/-- A lexical token.  Modelled from the spec (§3 "Token"): kind, lexeme,
optional literal payload, line number. -/
structure Token where
  ttype : TokenType
  lexeme : String
  literal : Option TokenLiteral
  line : Nat
deriving DecidableEq, Repr

/-- Convenience constructor for identifier tokens, used by concrete test
programs below. -/
def identTok (s : String) : Token := ⟨TokenType.identifier, s, none, 1⟩

/-! `f64` arithmetic is modelled by exact rational arithmetic.  The
`Rat` operations of the library are `@[irreducible]`, so the operations are
implemented here directly (producing normalized rationals via `mkRat`) to
keep the whole development kernel-computable.  On the integer-valued numbers
every theorem below uses, `f64` arithmetic is exact and agrees with these
operations. -/

/-- Exact `f64` addition. -/
def fAdd (a b : Rat) : Rat := mkRat (a.num * b.den + b.num * a.den) (a.den * b.den)

/-- Exact `f64` subtraction. -/
def fSub (a b : Rat) : Rat := mkRat (a.num * b.den - b.num * a.den) (a.den * b.den)

/-- Exact `f64` multiplication. -/
def fMul (a b : Rat) : Rat := mkRat (a.num * b.num) (a.den * b.den)

/-- Exact `f64` division (division by zero, which `f64` maps to an infinity
or NaN, yields `0` here; it is never exercised by a theorem). -/
def fDiv (a b : Rat) : Rat :=
  if b.num < 0 then mkRat (-(a.num * b.den)) (a.den * b.num.natAbs)
  else mkRat (a.num * b.den) (a.den * b.num.natAbs)

/-- Exact `f64` negation. -/
def fNeg (a : Rat) : Rat := mkRat (-a.num) a.den

/-- Exact `f64` strict order. -/
def fLt (a b : Rat) : Bool := a.num * b.den < b.num * a.den

/-- Exact `f64` non-strict order. -/
def fLe (a b : Rat) : Bool := a.num * b.den ≤ b.num * a.den

/-- An integer as a number value. -/
def ratInt (n : Int) : Rat := mkRat n 1

/-- `Operator` from `src/operators.rs`. -/
inductive Operator where
  | bang
  | bangEqual
  | equal
  | equalEqual
  | greater
  | greaterEqual
  | less
  | lessEqual
  | minus
  | plus
  | slash
  | star
  | orOp
  | andOp
deriving DecidableEq, Repr

/-- `Literal` from `src/interpreter/ast.rs` (the `Literal` enum nested in
`Expr`): `Bool`, `Number(OrderedFloat<f64>)`, `Str`, `Nil`.  The float is
modelled as `Rat`. -/
inductive Literal where
  | bool (b : Bool)
  | number (n : Rat)
  | str (s : String)
  | nil
deriving DecidableEq, Repr

/-! The expression/statement AST of `src/interpreter/ast.rs`.  `Vec<Expr>`,
`Vec<Stmt>`, `BTreeMap<String, Function>`, `BTreeMap<String, Expr>` and
`Option<Box<Expr>>` fields are represented by bespoke mutual list types so
that the family stays a plain mutual inductive family (Lean's `DecidableEq`
deriving does not handle nesting through `List`/`Option`).  A `Var` in the
source is always `Var::Token(token)`, so `Var` fields are represented by
`Token` directly.  `Function.context : Option<Rc<RefCell<Environment>>>` is
an optional frame id into the interpreter's arena. -/

mutual
/-- `Expr` from `src/interpreter/ast.rs`. -/
inductive Expr where
  | literal (l : Literal)
  | var (t : Token)
  | assign (t : Token) (value : Expr)
  | grouping (group : Expr)
  | unary (op : Operator) (right : Expr)
  | binary (left : Expr) (op : Operator) (right : Expr)
  | logical (left : Expr) (op : Operator) (right : Expr)
  | call (callee : Expr) (paren : Token) (args : ExprList)
  | fn (f : FunctionV)
  | inst (i : InstanceV)
  | cls (c : ClassV)
  | get (object : Expr) (name : Token)
  | set (object : Expr) (name : Token) (value : Expr)
  | this (keyword : Token)
  | sup (keyword : Token) (method : Token)

/-- `Vec<Expr>`. -/
inductive ExprList where
  | nil
  | cons (head : Expr) (tail : ExprList)

/-- `Option<Box<Expr>>` (used for superclasses). -/
inductive OptExpr where
  | none
  | some (e : Expr)

/-- The runtime `Function` struct: name, parameters, body, captured
environment (arena frame id), `is_initializer`. -/
inductive FunctionV where
  | mk (name : String) (params : List Token) (body : StmtList)
       (context : Option Nat) (isInit : Bool)

/-- The runtime `Instance` struct: class plus mutable field map. -/
inductive InstanceV where
  | mk (cls : ClassV) (fields : Fields)

/-- `BTreeMap<String, Expr>` (instance fields). -/
inductive Fields where
  | nil
  | cons (name : String) (value : Expr) (tail : Fields)

/-- The runtime `Class` struct: name, method map, optional superclass
expression (always a `Class` value when present). -/
inductive ClassV where
  | mk (name : String) (methods : Methods) (superclass : OptExpr)

/-- `BTreeMap<String, Function>` (class methods). -/
inductive Methods where
  | nil
  | cons (name : String) (f : FunctionV) (tail : Methods)

/-- `Stmt` from `src/interpreter/ast.rs`. -/
inductive Stmt where
  | print (e : Expr)
  | expression (e : Expr)
  | varDecl (name : String) (e : Expr)
  | funDecl (name : String) (params : List Token) (body : StmtList)
  | block (stmts : StmtList)
  | ifS (condition : Expr) (branchTrue : Stmt) (branchFalse : Stmt)
  | whileS (condition : Expr) (body : Stmt)
  | ret (keyword : Token) (value : Expr)
  | classDecl (name : Token) (methods : StmtList) (superclass : OptExpr)

/-- `Vec<Stmt>`. -/
inductive StmtList where
  | nil
  | cons (head : Stmt) (tail : StmtList)
end

deriving instance DecidableEq for Expr

def FunctionV.name : FunctionV → String
  | .mk n _ _ _ _ => n

def FunctionV.params : FunctionV → List Token
  | .mk _ p _ _ _ => p

def FunctionV.body : FunctionV → StmtList
  | .mk _ _ b _ _ => b

def FunctionV.context : FunctionV → Option Nat
  | .mk _ _ _ c _ => c

def FunctionV.isInit : FunctionV → Bool
  | .mk _ _ _ _ i => i

def ClassV.name : ClassV → String
  | .mk n _ _ => n

def ClassV.methods : ClassV → Methods
  | .mk _ m _ => m

def ClassV.superclass : ClassV → OptExpr
  | .mk _ _ s => s

def InstanceV.cls : InstanceV → ClassV
  | .mk c _ => c

def InstanceV.fields : InstanceV → Fields
  | .mk _ f => f

/-- `BTreeMap::get` on a method map. -/
def Methods.lookup : Methods → String → Option FunctionV
  | .nil, _ => Option.none
  | .cons n f t, k => if n = k then Option.some f else t.lookup k

/-- `BTreeMap::insert` on a method map (overwrite an existing key,
otherwise add the binding). -/
def Methods.insert : Methods → String → FunctionV → Methods
  | .nil, k, v => .cons k v .nil
  | .cons n f t, k, v =>
      if n = k then .cons n v t else .cons n f (t.insert k v)

/-- `BTreeMap::get` on an instance field map. -/
def Fields.lookup : Fields → String → Option Expr
  | .nil, _ => Option.none
  | .cons n v t, k => if n = k then Option.some v else t.lookup k

/-- `Instance::set_field`: `self.fields.insert(name.to_string(), value)`. -/
def Fields.insert : Fields → String → Expr → Fields
  | .nil, k, v => .cons k v .nil
  | .cons n w t, k, v =>
      if n = k then .cons n v t else .cons n w (t.insert k v)

def InstanceV.setField (i : InstanceV) (name : String) (v : Expr) :
    InstanceV :=
  .mk i.cls (i.fields.insert name v)

def ExprList.length : ExprList → Nat
  | .nil => 0
  | .cons _ t => t.length + 1

/-! ## The operator kernel, from `src/operators.rs`.

Every function returns `Result<Option<Expr>, Error>`; the `Error` payload is
its message string.  `Operator::binary`'s catch-all arm is
`panic!("Unknown binary operator")`; panics are modelled by `OpRes.panicked`.
-/

/-- Outcome of an operator-kernel call: `Ok` / `Err` of
`Result<Option<Expr>, Error>`, or a Rust panic. -/
inductive OpRes where
  | ok (v : Option Expr)
  | err (msg : String)
  | panicked (msg : String)
deriving DecidableEq

/-- `Operator::minus` (unary). -/
def Operator.minusU : Expr → OpRes
  | .literal (.number n) => .ok (some (.literal (.number (fNeg n))))
  | _ => .err "Operand must be a number."

/-- `Operator::negation`. -/
def Operator.negation : Expr → OpRes
  | .literal (.bool b) => .ok (some (.literal (.bool (!b))))
  | _ => .err "Operand must be a bool"

/-- `Operator::unary`. -/
def Operator.unary : Operator → Expr → OpRes
  | .minus, e => Operator.minusU e
  | .bang, e => Operator.negation e
  | _, _ => .err "Unknown unary operation"

/-- `Operator::addition`: `+` on two numbers or two strings. -/
def Operator.addition : Expr → Expr → OpRes
  | .literal (.number l), .literal (.number r) =>
      .ok (some (.literal (.number (fAdd l r))))
  | .literal (.str l), .literal (.str r) =>
      .ok (some (.literal (.str (l ++ r))))
  | _, _ => .err "Operands must be two numbers or two strings."

/-- `Operator::subtraction`. -/
def Operator.subtraction : Expr → Expr → OpRes
  | .literal (.number l), .literal (.number r) =>
      .ok (some (.literal (.number (fSub l r))))
  | _, _ => .err "Operands must be numbers."

/-- `Operator::multiplication`. -/
def Operator.multiplication : Expr → Expr → OpRes
  | .literal (.number l), .literal (.number r) =>
      .ok (some (.literal (.number (fMul l r))))
  | _, _ => .err "Operands must be numbers."

/-- `Operator::division`.  (`f64` division is modelled by exact `Rat`
division; no theorem below divides, and none divides by zero.) -/
def Operator.division : Expr → Expr → OpRes
  | .literal (.number l), .literal (.number r) =>
      .ok (some (.literal (.number (fDiv l r))))
  | _, _ => .err "Operands must be numbers."

/-- `Operator::equal_equal`, with its source arm order: functions (name and
parameter list), classes (name), same-kind literals, `Nil` on either side,
then the catch-all error. -/
def Operator.eqeq : Expr → Expr → OpRes
  | .fn (.mk n1 p1 _ _ _), .fn (.mk n2 p2 _ _ _) =>
      .ok (some (.literal (.bool (n1 = n2 && p1 = p2))))
  | .cls (.mk n1 _ _), .cls (.mk n2 _ _) =>
      .ok (some (.literal (.bool (n1 = n2))))
  | .literal (.bool l), .literal (.bool r) =>
      .ok (some (.literal (.bool (l = r))))
  | .literal (.number l), .literal (.number r) =>
      .ok (some (.literal (.bool (l = r))))
  | .literal (.str l), .literal (.str r) =>
      .ok (some (.literal (.bool (l = r))))
  | .literal .nil, .literal .nil => .ok (some (.literal (.bool true)))
  | .literal .nil, _ => .ok (some (.literal (.bool false)))
  | _, .literal .nil => .ok (some (.literal (.bool false)))
  | _, _ => .err "Operands must be of the same type"

/-- `Operator::bang_equal`: only same-kind `Bool`/`Number`/`Str` pairs are
handled; everything else (including `nil != nil`) is the catch-all error. -/
def Operator.bangEqualOp : Expr → Expr → OpRes
  | .literal (.bool l), .literal (.bool r) =>
      .ok (some (.literal (.bool (l ≠ r))))
  | .literal (.number l), .literal (.number r) =>
      .ok (some (.literal (.bool (l ≠ r))))
  | .literal (.str l), .literal (.str r) =>
      .ok (some (.literal (.bool (l ≠ r))))
  | _, _ => .err "Operands must be of the same type"

/-- `Operator::greater_than`. -/
def Operator.greaterThan : Expr → Expr → OpRes
  | .literal (.number l), .literal (.number r) =>
      .ok (some (.literal (.bool (fLt r l))))
  | _, _ => .err "Operands must be numbers."

/-- `Operator::greater_than_or_equal`. -/
def Operator.greaterThanOrEqual : Expr → Expr → OpRes
  | .literal (.number l), .literal (.number r) =>
      .ok (some (.literal (.bool (fLe r l))))
  | _, _ => .err "Operands must be numbers."

/-- `Operator::less_than`. -/
def Operator.lessThan : Expr → Expr → OpRes
  | .literal (.number l), .literal (.number r) =>
      .ok (some (.literal (.bool (fLt l r))))
  | _, _ => .err "Operands must be numbers."

/-- `Operator::less_than_or_equal`. -/
def Operator.lessThanOrEqual : Expr → Expr → OpRes
  | .literal (.number l), .literal (.number r) =>
      .ok (some (.literal (.bool (fLe l r))))
  | _, _ => .err "Operands must be numbers."

/-- `Operator::binary`: dispatch on the operator; the catch-all arm is a
`panic!`. -/
def Operator.binary : Operator → Expr → Expr → OpRes
  | .plus, l, r => Operator.addition l r
  | .minus, l, r => Operator.subtraction l r
  | .star, l, r => Operator.multiplication l r
  | .slash, l, r => Operator.division l r
  | .equalEqual, l, r => Operator.eqeq l r
  | .bangEqual, l, r => Operator.bangEqualOp l r
  | .greater, l, r => Operator.greaterThan l r
  | .greaterEqual, l, r => Operator.greaterThanOrEqual l r
  | .less, l, r => Operator.lessThan l r
  | .lessEqual, l, r => Operator.lessThanOrEqual l r
  | _, _, _ => .panicked "Unknown binary operator"

/-! ## Rust `Debug` rendering

`visit_print` prints with `println!("{:?}", ...)`; the `Expr`/`Literal`
enums derive `Debug`, and `ordered_float::OrderedFloat` forwards `Debug` to
the wrapped float.  Only `Expr::Literal` values ever reach the generic
`println!` arm of `visit_print` (class, instance and function results are
intercepted by the preceding match arms, and expression evaluation produces
only literal / function / class / instance values), so only the rendering of
literals is modelled; the remaining constructors map to a marker string that
no theorem relies on. -/

/-- Rust `Debug` escaping of one character inside a string literal (the
escapes relevant to this development). -/
def rustEscapeChar (c : Char) : String :=
  if c = '"' then "\\\""
  else if c = '\\' then "\\\\"
  else if c = '\n' then "\\n"
  else if c = '\t' then "\\t"
  else if c = '\r' then "\\r"
  else String.singleton c

/-- Rust `Debug` rendering of a `String`: quoted and escaped. -/
def rustStringDebug (s : String) : String :=
  "\"" ++ String.join (s.data.map rustEscapeChar) ++ "\""

/-- Rust `Debug` rendering of an `f64`, restricted to the values this
development prints: an integer-valued float renders as `<int>.0` (for
example `7.0`).  Non-integral rationals (never printed by any theorem
below) are rendered as an explicit fraction marker. -/
def rustFloatDebug (q : Rat) : String :=
  if q.den = 1 then toString q.num ++ ".0"
  else toString q.num ++ "/" ++ toString q.den

/-- Derived `Debug` output of the `Literal` enum. -/
def debugLiteral : Literal → String
  | .bool b => "Bool(" ++ toString b ++ ")"
  | .number n => "Number(" ++ rustFloatDebug n ++ ")"
  | .str s => "Str(" ++ rustStringDebug s ++ ")"
  | .nil => "Nil"

/-- Derived `Debug` output of an `Expr`, modelled for the `Literal`
constructor (the only one `visit_print`'s generic arm and the
`Invalid object` diagnostic of `visit_set` can observe in the theorems
below). -/
def debugExpr : Expr → String
  | .literal l => "Literal(" ++ debugLiteral l ++ ")"
  | _ => "<non-literal>"

/-- The line `Interpreter::visit_print` writes for an evaluated value:
class, instance and function values print as the `Debug` form of
`Expr::Literal(Literal::Str(name))`; any other value prints as its own
`Debug` form; an absent value prints `None`. -/
def printLine : Option Expr → String
  | some (.cls c) => "Literal(" ++ debugLiteral (.str c.name) ++ ")"
  | some (.inst i) => "Literal(" ++ debugLiteral (.str i.cls.name) ++ ")"
  | some (.fn f) => "Literal(" ++ debugLiteral (.str f.name) ++ ")"
  | some pv => debugExpr pv
  | none => "None"

/-! ## Interpreter state

`Environment` (`src/interpreter/visitors/interpreter.rs`) is a
`BTreeMap<String, Expr>` plus an optional enclosing
`Rc<RefCell<Environment>>`.  The shared mutable graph is modelled as an
arena: `State.frames` lists every environment ever allocated, in allocation
order, and an `Rc<RefCell<Environment>>` is the index of its frame.
`State.env` is the interpreter's `environments` field (the current
environment), `State.locals` its resolver-filled `locals` table,
`State.counter` its `counter` field, and `State.output` collects
`println!` lines. -/

/-- One environment: symbol table plus optional enclosing frame id. -/
structure Frame where
  table : List (String × Expr)
  enclosing : Option Nat
deriving DecidableEq

/-- The interpreter state. -/
structure State where
  frames : List Frame
  env : Option Nat
  locals : List (Expr × Nat)
  counter : Nat
  output : List String
deriving DecidableEq

/-- `Environment::define`: insert or overwrite in this frame only. -/
def Frame.define (fr : Frame) (name : String) (v : Expr) : Frame :=
  { fr with table := insertA fr.table name v }
where
  insertA : List (String × Expr) → String → Expr → List (String × Expr)
    | [], k, v => [(k, v)]
    | (n, w) :: t, k, v =>
        if n = k then (n, v) :: t else (n, w) :: insertA t k v

/-- `Environment::retrieve`: look up in this frame only. -/
def Frame.retrieve (fr : Frame) (name : String) : Option Expr :=
  lookupA fr.table name
where
  lookupA : List (String × Expr) → String → Option Expr
    | [], _ => none
    | (n, v) :: t, k => if n = k then some v else lookupA t k

/-- `Environment::contains_key`. -/
def Frame.containsKey (fr : Frame) (name : String) : Bool :=
  (fr.retrieve name).isSome

def State.getFrame (s : State) (i : Nat) : Option Frame :=
  s.frames.get? i

def State.setFrame (s : State) (i : Nat) (fr : Frame) : State :=
  { s with frames := s.frames.set i fr }

/-- Allocation of a fresh `Rc<RefCell<Environment>>`: append to the arena
and return its id. -/
def allocFrame (s : State) (fr : Frame) : Nat × State :=
  (s.frames.length, { s with frames := s.frames ++ [fr] })

/-- The enclosing id stored in frame `i` (`none` both for the root frame and
for an id outside the arena; ids outside the arena never arise, since an
`Rc` is always valid). -/
def State.enclosingOf (s : State) (i : Nat) : Option Nat :=
  match s.getFrame i with
  | some fr => fr.enclosing
  | none => none

/-- Walking `k` `enclosing` steps from a starting point: the sequence the
`EnvironmentIterator` yields. -/
def envWalk (s : State) : Option Nat → Nat → Option Nat
  | none, _ => none
  | some e, 0 => some e
  | some e, k + 1 => envWalk s (s.enclosingOf e) k

/-- The environment `k` levels above the current one. -/
def State.envAt (s : State) (k : Nat) : Option Nat :=
  envWalk s s.env k

/-- The ids of the current environment chain (`iterator()` until it yields
`None`), bounded by the arena size; reachable states have strictly
descending `enclosing` ids, so the bound is never hit. -/
def chainFrom (s : State) : Option Nat → Nat → List Nat
  | _, 0 => []
  | none, _ + 1 => []
  | some e, b + 1 => e :: chainFrom s (s.enclosingOf e) b

/-- `Interpreter::check_symbol`: does any frame of the current chain bind
`name`? -/
def State.checkSymbol (s : State) (name : String) : Bool :=
  (chainFrom s s.env (s.frames.length + 1)).any fun i =>
    match s.getFrame i with
    | some fr => fr.containsKey name
    | none => false

/-- Outcome of an interpreter step: `Ok`/`Err` of the Rust `Result`, a
panic, or fuel exhaustion. -/
inductive Res (α : Type) where
  | ok (a : α)
  | err (msg : String)
  | panicked (msg : String)
  | fuel
deriving DecidableEq

/-- `Interpreter::get_symbol_at`: negative positions are the
`Invalid position` error; otherwise walk to the `pos`-th frame of the chain
and retrieve there; a missing frame or binding is
`Undefined variable <name>`. -/
def State.getSymbolAt (s : State) (pos : Int) (name : String) :
    Res (Option Expr) :=
  if pos < 0 then .err "Invalid position"
  else
    match s.envAt pos.toNat with
    | some fid =>
        match s.getFrame fid with
        | some fr =>
            match fr.retrieve name with
            | some v => .ok (some v)
            | none => .err ("Undefined variable " ++ name)
        | none => .err ("Undefined variable " ++ name)
    | none => .err ("Undefined variable " ++ name)

/-- `Interpreter::assign_symbol_at`: `define` on the `pos`-th frame of the
chain; silently a no-op when the chain is shorter (the source returns
`Ok(None)` in every case). -/
def State.assignSymbolAt (s : State) (pos : Nat) (name : String) (v : Expr) :
    State :=
  match s.envAt pos with
  | some fid =>
      match s.getFrame fid with
      | some fr => s.setFrame fid (fr.define name v)
      | none => s
  | none => s

/-- The loop of `EnvironmentIterator::last`: up to `fuel` (= `counter`)
times, step to the enclosing frame (`None` aborts the walk), stopping early
at a frame with no enclosing. -/
def lastEnvAux (s : State) : Nat → Nat → Option Nat
  | 0, e => some e
  | k + 1, e =>
      match s.enclosingOf e with
      | none => none
      | some e' =>
          if s.enclosingOf e' = none then some e' else lastEnvAux s k e'

/-- `Interpreter::globals` = `iterator().last()`: the current frame if it
has no enclosing, else the `counter`-bounded walk of `lastEnvAux` (so a
chain deeper than `counter` yields a non-root frame). -/
def State.globalsEnv (s : State) : Option Nat :=
  match s.env with
  | none => none
  | some e =>
      if s.enclosingOf e = none then some e else lastEnvAux s s.counter e

/-- `locals.get(expr)` (`BTreeMap` keyed by the whole expression). -/
def lookupLocals : List (Expr × Nat) → Expr → Option Nat
  | [], _ => none
  | (k, d) :: t, e => if k = e then some d else lookupLocals t e

/-- `Interpreter::create_environment`'s choice of enclosing frame: the given
context if present, else the current environment. -/
def State.createEnclosing (s : State) (ctx : Option Nat) : Option Nat :=
  match ctx with
  | some e => some e
  | none => s.env

/-- `Interpreter::new_environment`: allocate a frame enclosing
`create_environment`'s choice, make it current, bump `counter`. -/
def State.newEnvironment (s : State) (ctx : Option Nat) : State :=
  let fid := (allocFrame s ⟨[], s.createEnclosing ctx⟩).1
  let s' := (allocFrame s ⟨[], s.createEnclosing ctx⟩).2
  { s' with env := some fid, counter := s'.counter + 1 }

/-- `Interpreter::drop_environment`: move to the enclosing of the current
frame; the source `unwrap`s, so a missing current frame or enclosing is a
panic (`none` here).  (`counter - 1` is `Nat` truncation; `counter` is
positive whenever this is called.) -/
def State.dropEnvironment (s : State) : Option State :=
  match s.env with
  | none => none
  | some e =>
      match s.getFrame e with
      | none => none
      | some fr =>
          match fr.enclosing with
          | none => none
          | some p => some { s with env := some p, counter := s.counter - 1 }

/-- `Interpreter::define_symbol`: `define` on the current frame; the source
`unwrap`s the current environment, so its absence is a panic (`none`). -/
def State.defineSymbol (s : State) (name : String) (v : Expr) :
    Option State :=
  match s.env with
  | none => none
  | some e =>
      match s.getFrame e with
      | none => none
      | some fr => some (s.setFrame e (fr.define name v))

/-- `Function::bind`: allocate a one-binding frame `{this: instance}`
enclosing the function's capture, and return the rebound function. -/
def bindFunction (f : FunctionV) (i : InstanceV) (s : State) :
    FunctionV × State :=
  let (fid, s') := allocFrame s ⟨[("this", .inst i)], f.context⟩
  (.mk f.name f.params f.body (some fid) f.isInit, s')

/-- `Class::find_method`: this class's map, then the superclass chain.  The
stored superclass is unwrapped with `extract_enum_value!`, which panics
(`Res.panicked`) if it is not a `Class` value. -/
def findMethod : ClassV → String → Res (Option FunctionV)
  | .mk _ m sc, name =>
    match m.lookup name with
    | some f => .ok (some f)
    | none =>
      match sc with
      | .some (.cls c') => findMethod c' name
      | .some _ => .panicked "Pattern doesn't match!"
      | .none => .ok none

/-- `Instance::get_field`: fields first, then a method bound to the
instance; otherwise `Undefined property '<name>'.` (binding allocates a
frame, hence the state). -/
def getField (i : InstanceV) (name : String) (s : State) :
    Res Expr × State :=
  match i.fields.lookup name with
  | some v => (.ok v, s)
  | none =>
      match findMethod i.cls name with
      | .ok (some m) =>
          let (bound, s') := bindFunction m i s
          (.ok (.fn bound), s')
      | .panicked msg => (.panicked msg, s)
      | _ => (.err ("Undefined property '" ++ name ++ "'."), s)

/-- `Function::from_stmt` applied to a `FunDecl` (the callers,
`visit_fun_decl` and `visit_class`, always pass one): capture the given
environment and initializer flag. -/
def functionFromDecl (name : String) (params : List Token) (body : StmtList)
    (env : Option Nat) (isInit : Bool) : FunctionV :=
  .mk name params body env isInit

/-- The method-map construction loop of `visit_class`: each member must be a
`FunDecl` (`extract_enum_value!` panics otherwise, modelled as `none`); each
becomes a `Function` capturing `env`, with `is_initializer` exactly when
named `init`; insertion order with `BTreeMap` overwrite semantics. -/
def buildMethods (env : Option Nat) : StmtList → Methods → Option Methods
  | .nil, acc => some acc
  | .cons (.funDecl n ps b) t, acc =>
      buildMethods env t
        (acc.insert n (functionFromDecl n ps b env (n = "init")))
  | .cons _ _, _ => none

/-! ## The tree-walking interpreter

One fuel-indexed evaluator covers the mutually recursive pieces of
`src/interpreter/visitors/interpreter.rs` and `src/interpreter/ast.rs`:
expression visitors, statement visitors, the statement loop of
`execute_block`, the `while` loop, argument evaluation, and
`Function::execute_call` / `Class::execute_call`.  Every recursive call
consumes one unit of fuel, so the function is structural in the fuel and
computable by the kernel. -/

/-- `BTreeMap::insert` on a symbol table. -/
def insertTable : List (String × Expr) → String → Expr →
    List (String × Expr)
  | [], k, v => [(k, v)]
  | (n, w) :: t, k, v =>
      if n = k then (n, v) :: t else (n, w) :: insertTable t k v

/-- The parameter environment of `Function::execute_call`: starting from the
fresh frame, `define` each parameter to the corresponding argument in
order. -/
def paramBindings : List Token → List Expr → List (String × Expr) :=
  go []
where
  go (acc : List (String × Expr)) :
      List Token → List Expr → List (String × Expr)
    | p :: pt, a :: as' => go (insertTable acc p.lexeme a) pt as'
    | _, _ => acc

/-- `Interpreter::lookup_symbol`: resolved distance if the locals table has
the expression, else the (counter-bounded) globals frame; an unresolved name
absent from globals is `Undefined variable '<name>'.`.  The `unwrap` on
`globals()` panics when there is no environment. -/
def lookupSymbol (s : State) (name : String) (key : Expr) :
    Res (Option Expr) × State :=
  match lookupLocals s.locals key with
  | some d => (s.getSymbolAt (Int.ofNat d) name, s)
  | none =>
      match s.globalsEnv with
      | none => (.panicked "unwrap", s)
      | some g =>
          match s.getFrame g with
          | none => (.panicked "unwrap", s)
          | some fr =>
              if fr.containsKey name then (.ok (fr.retrieve name), s)
              else (.err ("Undefined variable '" ++ name ++ "'."), s)

/-- The tail of `visit_set` after the field write: route the re-bind of the
updated instance through the resolved distance, or `define` it on the
(counter-bounded) globals frame; the result is the assigned value. -/
def setFinish (s : State) (distance : Option Nat) (varName : String)
    (i : InstanceV) (w : Expr) : Res (Option Expr) × State :=
  match distance with
  | some d => (.ok (some w), s.assignSymbolAt d varName (.inst i))
  | none =>
      match s.globalsEnv with
      | none => (.panicked "unwrap", s)
      | some g =>
          match s.getFrame g with
          | none => (.panicked "unwrap", s)
          | some fr =>
              (.ok (some w), s.setFrame g (fr.define varName (.inst i)))

/-- The tail of `visit_class`: build the method map (capturing `env`),
assemble the class value, and `define` it in the current environment. -/
def classFinish (s : State) (nameTok : Token) (ms : StmtList)
    (env : Option Nat) (asc : OptExpr) : Res (Option Stmt) × State :=
  match buildMethods env ms .nil with
  | none => (.panicked "Pattern doesn't match!", s)
  | some meths =>
      match s.defineSymbol nameTok.lexeme (.cls (.mk nameTok.lexeme meths asc)) with
      | some s₁ => (.ok none, s₁)
      | none => (.panicked "unwrap", s)

/-- Lift an operator-kernel outcome into an interpreter outcome. -/
def opResToRes : OpRes → Res (Option Expr)
  | .ok v => .ok v
  | .err m => .err m
  | .panicked m => .panicked m


/-- The `while let Some(Expr::Literal(Literal::Bool(true)))` test of
`visit_while`. -/
def isTrueLit : Option Expr → Bool
  | some (.literal (.bool true)) => true
  | _ => false

/-- The `if let Some(Expr::Literal(Literal::Bool(b)))` test of `visit_if`:
the condition's boolean when it is a `Bool` literal, else `none`. -/
def evalCondBool : Option Expr → Option Bool
  | some (.literal (.bool b)) => some b
  | _ => none

/-- The short-circuit test of `visit_logical`: for `Or` the left value is
kept exactly when it is the `true` Bool; for every other operator (`And`)
it is kept when it is the `false` Bool or `Nil` (the source returns a fresh
`Nil` in the latter case, the same value). -/
def logicalKeepsLeft (op : Operator) (la : Option Expr) :
    Option (Option Expr) :=
  match op with
  | .orOp =>
      match la with
      | some (.literal (.bool true)) => some (some (.literal (.bool true)))
      | _ => none
  | _ =>
      match la with
      | some (.literal (.bool false)) =>
          some (some (.literal (.bool false)))
      | some (.literal .nil) => some (some (.literal .nil))
      | _ => none

/-- The `Expr::Literal(Literal::Nil)` test of `visit_return`. -/
def isNilLit : Expr → Bool
  | .literal .nil => true
  | _ => false

/-- The `var_name` computation of `visit_set`: the lexeme for a plain
variable or `this`, and `none` (a `panic!` in the source) for any other
object expression. -/
def setTargetName : Expr → Option String
  | .var t => some t.lexeme
  | .this t => some t.lexeme
  | _ => none

/-- The `Some(Stmt::Return(..))` test used by `visit_while`, `visit_block`
and `Function::execute_call` on a statement result: the carrier's keyword
and value when the result is a `Return` carrier. -/
def asReturn : Option Stmt → Option (Token × Expr)
  | some (.ret kw v) => some (kw, v)
  | _ => none

/-- A unit of work for the evaluator. -/
inductive Job where
  | expr (e : Expr)
  | stmt (st : Stmt)
  | stmtSeq (l : StmtList)
  | execBlock (l : StmtList) (envArg : Option Nat)
  | whileGo (cond : Expr) (body : Stmt) (acc : Option Expr)
      (res : Option Stmt)
  | args (l : ExprList)
  | callFun (f : FunctionV) (argv : List Expr)
  | callClass (c : ClassV) (argv : List Expr)

/-- The result type a job produces: `Option<Expr>` for expressions,
`Option<Stmt>` (the `Return` carrier) for statements, the evaluated
argument values for `args`, and the call result for the two `execute_call`
forms. -/
def OutTy : Job → Type
  | .expr _ => Option Expr
  | .stmt _ => Option Stmt
  | .stmtSeq _ => Option Stmt
  | .execBlock _ _ => Option Stmt
  | .whileGo _ _ _ _ => Option Stmt
  | .args _ => List Expr
  | .callFun _ _ => Expr
  | .callClass _ _ => Expr

/-- The interpreter.  Each arm is the corresponding visitor of
`src/interpreter/visitors/interpreter.rs` (or call method of
`src/interpreter/ast.rs`); `.err` is a returned `Err(Error)`, `.panicked` an
`unwrap`/`panic!` abort. -/
def run : Nat → State → (j : Job) → Res (OutTy j) × State
  | 0, s, _ => (.fuel, s)
  | _ + 1, s, .expr (.literal l) => (.ok (some (.literal l)), s)
  | _ + 1, s, .expr (.var t) => lookupSymbol s t.lexeme (.var t)
  | k + 1, s, .expr (.assign t v) =>
      if s.checkSymbol t.lexeme then
        match run k s (.expr v) with
        | (.ok (some w), s₁) =>
            (match lookupLocals s₁.locals (.assign t v) with
             | some d => (.ok (some w), s₁.assignSymbolAt d t.lexeme w)
             | none =>
                 match s₁.globalsEnv with
                 | none => (.panicked "unwrap", s₁)
                 | some g =>
                     match s₁.getFrame g with
                     | none => (.panicked "unwrap", s₁)
                     | some fr =>
                         (.ok (some w), s₁.setFrame g (fr.define t.lexeme w)))
        | (.ok none, s₁) => (.panicked "unwrap", s₁)
        | (.err m, s₁) => (.err m, s₁)
        | (.panicked m, s₁) => (.panicked m, s₁)
        | (.fuel, s₁) => (.fuel, s₁)
      else (.err ("Undefined variable '" ++ t.lexeme ++ "'."), s)
  | k + 1, s, .expr (.grouping g) => run k s (.expr g)
  | k + 1, s, .expr (.unary op r) =>
      match run k s (.expr r) with
      | (.ok (some v), s₁) => (opResToRes (Operator.unary op v), s₁)
      | (.ok none, s₁) => (.panicked "unwrap", s₁)
      | (.err m, s₁) => (.err m, s₁)
      | (.panicked m, s₁) => (.panicked m, s₁)
      | (.fuel, s₁) => (.fuel, s₁)
  | k + 1, s, .expr (.binary l op r) =>
      match run k s (.expr l) with
      | (.ok (some lv), s₁) =>
          (match run k s₁ (.expr r) with
           | (.ok (some rv), s₂) => (opResToRes (Operator.binary op lv rv), s₂)
           | (.ok none, s₂) => (.panicked "unwrap", s₂)
           | (.err m, s₂) => (.err m, s₂)
           | (.panicked m, s₂) => (.panicked m, s₂)
           | (.fuel, s₂) => (.fuel, s₂))
      | (.ok none, s₁) => (.panicked "unwrap", s₁)
      | (.err m, s₁) => (.err m, s₁)
      | (.panicked m, s₁) => (.panicked m, s₁)
      | (.fuel, s₁) => (.fuel, s₁)
  | k + 1, s, .expr (.logical l op r) =>
      match run k s (.expr l) with
      | (.ok la, s₁) =>
          (match logicalKeepsLeft op la with
           | some v => (.ok v, s₁)
           | none =>
               match run k s₁ (.expr r) with
               | (.ok ra, s₂) => (.ok ra, s₂)
               | (.err m, s₂) => (.panicked m, s₂)
               | (.panicked m, s₂) => (.panicked m, s₂)
               | (.fuel, s₂) => (.fuel, s₂))
      | (.err m, s₁) => (.panicked m, s₁)
      | (.panicked m, s₁) => (.panicked m, s₁)
      | (.fuel, s₁) => (.fuel, s₁)
  | k + 1, s, .expr (.call callee _ argl) =>
      match run k s (.expr callee) with
      | (.ok (some cv), s₁) =>
          (match run k s₁ (.args argl) with
           | (.ok argv, s₂) =>
               (match cv with
                | .fn f =>
                    if argv.length = f.params.length then
                      match run k s₂ (.callFun f argv) with
                      | (.ok r, s₃) => (.ok (some r), s₃)
                      | (.err m, s₃) => (.err m, s₃)
                      | (.panicked m, s₃) => (.panicked m, s₃)
                      | (.fuel, s₃) => (.fuel, s₃)
                    else
                      (.err ("Invalid number of arguments (got " ++
                        toString argv.length ++ ", expected " ++
                        toString f.params.length ++ ")"), s₂)
                | .cls c =>
                    match run k s₂ (.callClass c argv) with
                    | (.ok r, s₃) => (.ok (some r), s₃)
                    | (.err m, s₃) => (.err m, s₃)
                    | (.panicked m, s₃) => (.panicked m, s₃)
                    | (.fuel, s₃) => (.fuel, s₃)
                | _ => (.err "Can only call functions and classes.", s₂))
           | (.err m, s₂) => (.err m, s₂)
           | (.panicked m, s₂) => (.panicked m, s₂)
           | (.fuel, s₂) => (.fuel, s₂))
      | (.ok none, s₁) => (.err "Can only call functions and classes.", s₁)
      | (.err m, s₁) => (.err m, s₁)
      | (.panicked m, s₁) => (.panicked m, s₁)
      | (.fuel, s₁) => (.fuel, s₁)
  | k + 1, s, .expr (.get obj name) =>
      match run k s (.expr obj) with
      | (.ok (some (.inst i)), s₁) =>
          (match getField i name.lexeme s₁ with
           | (.ok v, s₂) => (.ok (some v), s₂)
           | (.err m, s₂) => (.err m, s₂)
           | (.panicked m, s₂) => (.panicked m, s₂)
           | (.fuel, s₂) => (.fuel, s₂))
      | (.panicked m, s₁) => (.panicked m, s₁)
      | (.fuel, s₁) => (.fuel, s₁)
      | (_, s₁) => (.err "Only instances have properties.", s₁)
  | k + 1, s, .expr (.set obj name val) =>
      match run k s (.expr obj) with
      | (.ok (some ov), s₁) =>
          (match ov with
           | .inst i =>
               (match run k s₁ (.expr val) with
                | (.ok (some w), s₂) =>
                    (match setTargetName obj with
                     | some vn =>
                         setFinish s₂ (lookupLocals s₂.locals obj) vn
                           (i.setField name.lexeme w) w
                     | none =>
                         (.panicked "Invalid object",
                          { s₂ with output := s₂.output ++
                              ["Invalid object: " ++ debugExpr obj] }))
                | (.ok none, s₂) => (.panicked "unwrap", s₂)
                | (.err m, s₂) => (.err m, s₂)
                | (.panicked m, s₂) => (.panicked m, s₂)
                | (.fuel, s₂) => (.fuel, s₂))
           | _ => (.err "Only instances have fields.", s₁))
      | (.ok none, s₁) => (.panicked "unwrap", s₁)
      | (.err m, s₁) => (.err m, s₁)
      | (.panicked m, s₁) => (.panicked m, s₁)
      | (.fuel, s₁) => (.fuel, s₁)
  | _ + 1, s, .expr (.this t) => lookupSymbol s t.lexeme (.this t)
  | _ + 1, s, .expr (.sup kw m) =>
      (match lookupLocals s.locals (.sup kw m) with
       | none => (.panicked "unwrap", s)
       | some d =>
           match s.getSymbolAt (Int.ofNat d) "super" with
           | .ok (some sv) =>
               (match s.getSymbolAt (Int.ofNat d - 1) "this" with
                | .ok (some tv) =>
                    (match sv with
                     | .cls sc =>
                         (match tv with
                          | .inst obj =>
                              (match findMethod sc m.lexeme with
                               | .ok (some fnc) =>
                                   let p := bindFunction fnc obj s
                                   (.ok (some (.fn p.1)), p.2)
                               | .panicked msg => (.panicked msg, s)
                               | .fuel => (.fuel, s)
                               | _ =>
                                   (.err ("Undefined property '" ++
                                     m.lexeme ++ "'."), s))
                          | _ => (.panicked "Pattern doesn't match!", s))
                     | _ => (.panicked "Pattern doesn't match!", s))
                | .ok none => (.panicked "unwrap", s)
                | .err msg => (.err msg, s)
                | .panicked msg => (.panicked msg, s)
                | .fuel => (.fuel, s))
           | .ok none => (.panicked "unwrap", s)
           | .err msg => (.err msg, s)
           | .panicked msg => (.panicked msg, s)
           | .fuel => (.fuel, s))
  | _ + 1, s, .expr (.fn _) => (.panicked "Invalid expression", s)
  | _ + 1, s, .expr (.inst _) => (.panicked "Invalid expression", s)
  | _ + 1, s, .expr (.cls _) => (.panicked "Invalid expression", s)
  | k + 1, s, .stmt (.expression e) =>
      (match run k s (.expr e) with
       | (.ok _, s₁) => (.ok none, s₁)
       | (.err m, s₁) => (.err m, s₁)
       | (.panicked m, s₁) => (.panicked m, s₁)
       | (.fuel, s₁) => (.fuel, s₁))
  | k + 1, s, .stmt (.print e) =>
      (match run k s (.expr e) with
       | (.ok opv, s₁) =>
           (.ok none, { s₁ with output := s₁.output ++ [printLine opv] })
       | (.err m, s₁) => (.err m, s₁)
       | (.panicked m, s₁) => (.panicked m, s₁)
       | (.fuel, s₁) => (.fuel, s₁))
  | k + 1, s, .stmt (.varDecl n e) =>
      (match run k s (.expr e) with
       | (.ok (some v), s₁) =>
           (match s₁.defineSymbol n v with
            | some s₂ => (.ok none, s₂)
            | none => (.panicked "unwrap", s₁))
       | (.ok none, s₁) => (.panicked "unwrap", s₁)
       | (.err m, s₁) => (.err m, s₁)
       | (.panicked m, s₁) => (.panicked m, s₁)
       | (.fuel, s₁) => (.fuel, s₁))
  | k + 1, s, .stmt (.ifS c bt bf) =>
      (match run k s (.expr c) with
       | (.ok cv, s₁) =>
           (match evalCondBool cv with
            | some true => run k s₁ (.stmt bt)
            | some false => run k s₁ (.stmt bf)
            | none => (.err "Invalid condition", s₁))
       | (.err m, s₁) => (.panicked m, s₁)
       | (.panicked m, s₁) => (.panicked m, s₁)
       | (.fuel, s₁) => (.fuel, s₁))
  | k + 1, s, .stmt (.whileS c b) =>
      (match run k s (.expr c) with
       | (.ok acc, s₁) => run k s₁ (.whileGo c b acc none)
       | (.err m, s₁) => (.panicked m, s₁)
       | (.panicked m, s₁) => (.panicked m, s₁)
       | (.fuel, s₁) => (.fuel, s₁))
  | k + 1, s, .whileGo c b acc res =>
      (if isTrueLit acc then
           (match run k s (.stmt b) with
            | (.ok r', s₁) =>
                (match asReturn r' with
                 | some (kw, v) => (.ok (some (.ret kw v)), s₁)
                 | none =>
                     match run k s₁ (.expr c) with
                     | (.ok acc', s₂) => run k s₂ (.whileGo c b acc' r')
                     | (.err m, s₂) => (.panicked m, s₂)
                     | (.panicked m, s₂) => (.panicked m, s₂)
                     | (.fuel, s₂) => (.fuel, s₂))
            | (.err m, s₁) => (.err m, s₁)
            | (.panicked m, s₁) => (.panicked m, s₁)
            | (.fuel, s₁) => (.fuel, s₁))
       else (.ok res, s))
  | k + 1, s, .stmt (.block l) =>
      (match run k (s.newEnvironment none) (.execBlock l (s.newEnvironment none).env) with
       | (.ok r, s₂) =>
           (match s₂.dropEnvironment with
            | some s₃ =>
                (match asReturn r with
                 | some (kw, v) => (.ok (some (.ret kw v)), s₃)
                 | none => (.ok none, s₃))
            | none => (.panicked "unwrap", s₂))
       | (.err m, s₂) =>
           (match s₂.dropEnvironment with
            | some s₃ => (.err m, s₃)
            | none => (.panicked "unwrap", s₂))
       | (.panicked m, s₂) => (.panicked m, s₂)
       | (.fuel, s₂) => (.fuel, s₂))
  | k + 1, s, .execBlock l envArg =>
      (match run k { s with env := envArg } (.stmtSeq l) with
       | (.ok r, s₁) => (.ok r, { s₁ with env := s.env })
       | (.err m, s₁) => (.err m, s₁)
       | (.panicked m, s₁) => (.panicked m, s₁)
       | (.fuel, s₁) => (.fuel, s₁))
  | _ + 1, s, .stmtSeq .nil => (.ok none, s)
  | k + 1, s, .stmtSeq (.cons st t) =>
      (match run k s (.stmt st) with
       | (.ok none, s₁) => run k s₁ (.stmtSeq t)
       | (.ok (some r), s₁) => (.ok (some r), s₁)
       | (.err m, s₁) => (.err m, s₁)
       | (.panicked m, s₁) => (.panicked m, s₁)
       | (.fuel, s₁) => (.fuel, s₁))
  | _ + 1, s, .stmt (.funDecl n ps b) =>
      (match s.defineSymbol n (.fn (functionFromDecl n ps b s.env false)) with
       | some s₁ => (.ok none, s₁)
       | none => (.panicked "unwrap", s))
  | k + 1, s, .stmt (.ret kw v) =>
      (if isNilLit v then (.ok (some (.ret kw (.literal .nil))), s)
       else
           match run k s (.expr v) with
           | (.ok (some w), s₁) => (.ok (some (.ret kw w)), s₁)
           | (.ok none, s₁) => (.panicked "unwrap", s₁)
           | (.err m, s₁) => (.err m, s₁)
           | (.panicked m, s₁) => (.panicked m, s₁)
           | (.fuel, s₁) => (.fuel, s₁))
  | k + 1, s, .stmt (.classDecl nameTok ms sc) =>
      (match sc with
       | .some scExpr =>
           (match run k s (.expr scExpr) with
            | (.ok av, s₁) =>
                (match av with
                 | some (.cls scv) =>
                     let p := allocFrame s₁
                       ⟨[("super", .cls scv)], s₁.createEnclosing s.env⟩
                     classFinish p.2 nameTok ms (some p.1) (.some (.cls scv))
                 | _ => (.err "Superclass must be a class.", s₁))
            | (.err m, s₁) => (.panicked m, s₁)
            | (.panicked m, s₁) => (.panicked m, s₁)
            | (.fuel, s₁) => (.fuel, s₁))
       | .none => classFinish s nameTok ms s.env .none)
  | _ + 1, s, .args .nil => (.ok [], s)
  | k + 1, s, .args (.cons e t) =>
      (match run k s (.expr e) with
       | (.ok (some v), s₁) =>
           (match run k s₁ (.args t) with
            | (.ok vs, s₂) => (.ok (v :: vs), s₂)
            | (.err m, s₂) => (.err m, s₂)
            | (.panicked m, s₂) => (.panicked m, s₂)
            | (.fuel, s₂) => (.fuel, s₂))
       | (.ok none, s₁) => (.panicked "unwrap", s₁)
       | (.err m, s₁) => (.panicked m, s₁)
       | (.panicked m, s₁) => (.panicked m, s₁)
       | (.fuel, s₁) => (.fuel, s₁))
  | k + 1, s, .callFun f argv =>
      (match f.context with
       | none => (.panicked "unwrap", s)
       | some ctx =>
           if argv.length = f.params.length then
             let p := allocFrame s ⟨paramBindings f.params argv, some ctx⟩
             match run k p.2 (.execBlock f.body (some p.1)) with
             | (.ok res, s₂) =>
                 if f.isInit then
                   match s₂.getFrame ctx with
                   | some cfr =>
                       (match cfr.retrieve "this" with
                        | some v => (.ok v, s₂)
                        | none => (.panicked "unwrap", s₂))
                   | none => (.panicked "unwrap", s₂)
                 else
                   match asReturn res with
                   | some (_, v) => (.ok v, s₂)
                   | none => (.ok (.literal .nil), s₂)
             | (.err m, s₂) => (.err m, s₂)
             | (.panicked m, s₂) => (.panicked m, s₂)
             | (.fuel, s₂) => (.fuel, s₂)
           else
             (.err ("Invalid number of arguments (got " ++
               toString argv.length ++ ", expected " ++
               toString f.params.length ++ ")."), s))
  | k + 1, s, .callClass c argv =>
      (match findMethod c "init" with
       | .ok (some initf) =>
           let p := bindFunction initf (.mk c .nil) s
           run k p.2 (.callFun p.1 argv)
       | .panicked m => (.panicked m, s)
       | .fuel => (.fuel, s)
       | _ =>
           if argv.length = 0 then (.ok (.inst (.mk c .nil)), s)
           else
             (.err ("Invalid number of arguments (got " ++
               toString argv.length ++ ", expected 0)."), s))

/-! ## The resolver, from `src/visitors/resolver.rs`

Scopes form a stack; it is modelled head-innermost (Rust pushes/pops at the
`Vec` end and iterates with `.rev()`, so the head here is the scope the
source reaches first).  `resolve_local` writes into the interpreter's
locals table, carried in the resolver state.  Results mirror
`Result<Option<Stmt>, Error>` / `Result<Option<Expr>, Error>`; no caller
consumes the `Ok` payloads, so both collapse to `Res Unit`. -/

/-- `Resolver`'s `FunctionType`. -/
inductive FunctionType where
  | noneF
  | function
  | method
  | initializer
deriving DecidableEq

/-- `Resolver`'s `ClassType`. -/
inductive ClassType where
  | noneC
  | classC
  | subClass
deriving DecidableEq

/-- One resolver `Scope`: name to defined-flag. -/
abbrev Scope := List (String × Bool)

/-- `Scope::define` (`HashMap::insert`). -/
def scopeInsert : Scope → String → Bool → Scope
  | [], k, v => [(k, v)]
  | (n, w) :: t, k, v =>
      if n = k then (n, v) :: t else (n, w) :: scopeInsert t k v

/-- `Scope::retrieve`. -/
def scopeRetrieve : Scope → String → Option Bool
  | [], _ => none
  | (n, w) :: t, k => if n = k then some w else scopeRetrieve t k

/-- `Scope::exists`. -/
def scopeExists (sc : Scope) (k : String) : Bool :=
  (scopeRetrieve sc k).isSome

/-- The resolver state: scope stack (head innermost), the interpreter's
locals table it fills, and the enclosing function/class markers. -/
structure RState where
  scopes : List Scope
  locals : List (Expr × Nat)
  currentFunction : FunctionType
  currentClass : ClassType
deriving DecidableEq

/-- The resolver's starting state: one (global) scope. -/
def rInit : RState := ⟨[[]], [], .noneF, .noneC⟩

/-- `Resolver::declare`: an existing name in a non-global current scope is
the double-declaration error; otherwise insert with flag `false`. -/
def RState.declare (rs : RState) (name : String) : Res Unit × RState :=
  match rs.scopes with
  | [] => (.ok (), rs)
  | sc :: rest =>
      if rest.isEmpty then
        (.ok (), { rs with scopes := scopeInsert sc name false :: rest })
      else if scopeExists sc name then
        (.err ("Error at '" ++ name ++
          "': Already a variable with this name in this scope."), rs)
      else (.ok (), { rs with scopes := scopeInsert sc name false :: rest })

/-- `Resolver::define`: set the flag to `true` in the current scope. -/
def RState.define (rs : RState) (name : String) : RState :=
  match rs.scopes with
  | [] => rs
  | sc :: rest => { rs with scopes := scopeInsert sc name true :: rest }

/-- `Resolver::get_non_global`: the innermost binding of `name`, searching
every scope except the global one. -/
def RState.getNonGlobal (rs : RState) (name : String) : Option Bool :=
  go rs.scopes.dropLast
where
  go : List Scope → Option Bool
    | [] => none
    | sc :: rest =>
        match scopeRetrieve sc name with
        | some b => some b
        | none => go rest

/-- `Resolver::contains_key`: does any scope bind `name`? -/
def RState.containsKeyR (rs : RState) (name : String) : Bool :=
  rs.scopes.any fun sc => scopeExists sc name

/-- `locals.insert(expr, depth)` (`BTreeMap` overwrite). -/
def localsInsert : List (Expr × Nat) → Expr → Nat → List (Expr × Nat)
  | [], e, d => [(e, d)]
  | (k, w) :: t, e, d =>
      if k = e then (k, d) :: t else (k, w) :: localsInsert t e d

/-- `Resolver::resolve_local`: record
`depth = scopes.len - 1 - i` (= the head-first index of the innermost scope
binding `name`) for the expression; no entry if the name is found
nowhere. -/
def RState.resolveLocal (rs : RState) (e : Expr) (name : String) : RState :=
  match go rs.scopes 0 with
  | some d => { rs with locals := localsInsert rs.locals e d }
  | none => rs
where
  go : List Scope → Nat → Option Nat
    | [], _ => none
    | sc :: rest, j =>
        if scopeExists sc name then some j else go rest (j + 1)

/-- `Resolver::begin_scope`. -/
def RState.beginScope (rs : RState) : RState :=
  { rs with scopes := [] :: rs.scopes }

/-- `Resolver::end_scope` (`Vec::pop`, a no-op on an empty stack). -/
def RState.endScope (rs : RState) : RState :=
  { rs with scopes := rs.scopes.tail }

/-- The parameter loop of `resolve_function`: `declare` (which can fail)
then `define` each parameter in order. -/
def declareParams (rs : RState) : List Token → Res Unit × RState
  | [] => (.ok (), rs)
  | p :: t =>
      match rs.declare p.lexeme with
      | (.ok _, rs₁) => declareParams (rs₁.define p.lexeme) t
      | r => r

/-- A unit of resolver work. -/
inductive RJob where
  | rexpr (e : Expr)
  | rstmt (st : Stmt)
  | rstmts (l : StmtList)
  | rfunction (params : List Token) (body : StmtList) (ftype : FunctionType)
  | rmethods (l : StmtList)
  | rargsR (l : ExprList)
  | rclassBody (ms : StmtList) (hasSuper : Bool) (enclosing : ClassType)

/-- The resolver pass.  Each arm is the corresponding visitor of
`src/visitors/resolver.rs`; `.err` is a returned `Err(Error)`, `.panicked`
an `unwrap`/`panic!` abort. -/
def runR : Nat → RState → RJob → Res Unit × RState
  | 0, rs, _ => (.fuel, rs)
  | _ + 1, rs, .rexpr (.literal _) => (.ok (), rs)
  | _ + 1, rs, .rexpr (.var t) =>
      if rs.scopes.length != 0 && rs.containsKeyR t.lexeme &&
          (rs.getNonGlobal t.lexeme == some false) then
        (.err ("Error at '" ++ t.lexeme ++
          "': Can't read local variable in its own initializer."), rs)
      else (.ok (), rs.resolveLocal (.var t) t.lexeme)
  | k + 1, rs, .rexpr (.assign t v) =>
      (match runR k rs (.rexpr v) with
       | (.ok _, rs₁) => (.ok (), rs₁.resolveLocal (.assign t v) t.lexeme)
       | r => r)
  | k + 1, rs, .rexpr (.grouping g) => runR k rs (.rexpr g)
  | k + 1, rs, .rexpr (.unary _ r) =>
      (match runR k rs (.rexpr r) with
       | (.ok _, rs₁) => (.ok (), rs₁)
       | (.err m, rs₁) => (.panicked m, rs₁)
       | r => r)
  | k + 1, rs, .rexpr (.binary l _ r) =>
      (match runR k rs (.rexpr l) with
       | (.ok _, rs₁) =>
           (match runR k rs₁ (.rexpr r) with
            | (.ok _, rs₂) => (.ok (), rs₂)
            | (.err m, rs₂) => (.panicked m, rs₂)
            | r => r)
       | (.err m, rs₁) => (.panicked m, rs₁)
       | r => r)
  | k + 1, rs, .rexpr (.logical l _ r) =>
      (match runR k rs (.rexpr l) with
       | (.ok _, rs₁) =>
           (match runR k rs₁ (.rexpr r) with
            | (.ok _, rs₂) => (.ok (), rs₂)
            | (.err m, rs₂) => (.panicked m, rs₂)
            | r => r)
       | (.err m, rs₁) => (.panicked m, rs₁)
       | r => r)
  | k + 1, rs, .rexpr (.call callee _ argl) =>
      (match runR k rs (.rexpr callee) with
       | (.ok _, rs₁) => runR k rs₁ (.rargsR argl)
       | r => r)
  | _ + 1, rs, .rargsR .nil => (.ok (), rs)
  | k + 1, rs, .rargsR (.cons e t) =>
      (match runR k rs (.rexpr e) with
       | (.panicked m, rs₁) => (.panicked m, rs₁)
       | (.fuel, rs₁) => (.fuel, rs₁)
       | (_, rs₁) => runR k rs₁ (.rargsR t))
  | k + 1, rs, .rexpr (.get obj _) => runR k rs (.rexpr obj)
  | k + 1, rs, .rexpr (.set obj _ v) =>
      (match runR k rs (.rexpr obj) with
       | (.ok _, rs₁) =>
           (match runR k rs₁ (.rexpr v) with
            | (.ok _, rs₂) => (.ok (), rs₂)
            | r => r)
       | r => r)
  | _ + 1, rs, .rexpr (.this kw) =>
      if rs.currentClass = .noneC then
        (.err ("Error at '" ++ kw.lexeme ++
          "': Can't use 'this' outside of a class."), rs)
      else (.ok (), rs.resolveLocal (.this kw) kw.lexeme)
  | _ + 1, rs, .rexpr (.sup kw m) =>
      if rs.currentClass = .noneC then
        (.err ("Error at '" ++ kw.lexeme ++
          "': Can't use 'super' outside of a class."), rs)
      else if rs.currentClass ≠ .subClass then
        (.err ("Error at '" ++ kw.lexeme ++
          "': Can't use 'super' in a class with no superclass."), rs)
      else (.ok (), rs.resolveLocal (.sup kw m) kw.lexeme)
  | _ + 1, rs, .rexpr (.fn _) => (.panicked "Invalid expression", rs)
  | _ + 1, rs, .rexpr (.inst _) => (.panicked "Invalid expression", rs)
  | _ + 1, rs, .rexpr (.cls _) => (.panicked "Invalid expression", rs)
  | k + 1, rs, .rstmt (.expression e) =>
      (match runR k rs (.rexpr e) with
       | (.ok _, rs₁) => (.ok (), rs₁)
       | r => r)
  | k + 1, rs, .rstmt (.print e) =>
      (match runR k rs (.rexpr e) with
       | (.ok _, rs₁) => (.ok (), rs₁)
       | r => r)
  | k + 1, rs, .rstmt (.varDecl n e) =>
      (match rs.declare n with
       | (.ok _, rs₁) =>
           (match runR k rs₁ (.rexpr e) with
            | (.ok _, rs₂) => (.ok (), rs₂.define n)
            | r => r)
       | r => r)
  | k + 1, rs, .rstmt (.block l) =>
      (match runR k rs.beginScope (.rstmts l) with
       | (.ok _, rs₁) => (.ok (), rs₁.endScope)
       | r => r)
  | _ + 1, rs, .rstmts .nil => (.ok (), rs)
  | k + 1, rs, .rstmts (.cons st t) =>
      (match runR k rs (.rstmt st) with
       | (.ok _, rs₁) => runR k rs₁ (.rstmts t)
       | r => r)
  | k + 1, rs, .rstmt (.ifS c bt bf) =>
      (match runR k rs (.rexpr c) with
       | (.ok _, rs₁) =>
           (match runR k rs₁ (.rstmt bt) with
            | (.ok _, rs₂) =>
                (match runR k rs₂ (.rstmt bf) with
                 | (.ok _, rs₃) => (.ok (), rs₃)
                 | r => r)
            | r => r)
       | r => r)
  | k + 1, rs, .rstmt (.whileS c b) =>
      (match runR k rs (.rexpr c) with
       | (.ok _, rs₁) =>
           (match runR k rs₁ (.rstmt b) with
            | (.ok _, rs₂) => (.ok (), rs₂)
            | (.err m, rs₂) => (.panicked m, rs₂)
            | r => r)
       | (.err m, rs₁) => (.panicked m, rs₁)
       | r => r)
  | k + 1, rs, .rstmt (.funDecl n _ps b) =>
      (match rs.declare n with
       | (.ok _, rs₁) =>
           (match runR k (rs₁.define n) (.rfunction _ps b .function) with
            | (.ok _, rs₂) => (.ok (), rs₂)
            | r => r)
       | r => r)
  | k + 1, rs, .rfunction ps b ftype =>
      (match declareParams
          ({ rs with currentFunction := ftype }).beginScope ps with
       | (.ok _, rs₁) =>
           (match runR k rs₁ (.rstmts b) with
            | (.ok _, rs₂) =>
                (.ok (), { rs₂.endScope with
                  currentFunction := rs.currentFunction })
            | r => r)
       | r => r)
  | k + 1, rs, .rstmt (.ret kw v) =>
      if rs.currentFunction = .noneF then
        (.err ("Error at '" ++ kw.lexeme ++
          "': Can't return from top-level code."), rs)
      else
        (match v with
         | .literal .nil => (.ok (), rs)
         | _ =>
             if rs.currentFunction = .initializer then
               (.err ("Error at '" ++ kw.lexeme ++
                 "': Can't return a value from an initializer."), rs)
             else
               match runR k rs (.rexpr v) with
               | (.ok _, rs₁) => (.ok (), rs₁)
               | r => r)
  | k + 1, rs, .rstmt (.classDecl nameTok ms sc) =>
      (match ({ rs with currentClass := .classC }).declare nameTok.lexeme with
       | (.ok _, rs₁) =>
           (match sc with
            | .some scExpr =>
                (match scExpr with
                 | .var t =>
                     if t.lexeme = nameTok.lexeme then
                       (.err ("Error at '" ++ nameTok.lexeme ++
                         "': A class can't inherit from itself."),
                        rs₁.define nameTok.lexeme)
                     else
                       (match runR k
                           { rs₁.define nameTok.lexeme with
                             currentClass := .subClass }
                           (.rexpr scExpr) with
                        | (.ok _, rs₂) =>
                            runR k
                              ((rs₂.beginScope.define "super").beginScope.define
                                "this")
                              (.rclassBody ms true rs.currentClass)
                        | (.err m, rs₂) => (.panicked m, rs₂)
                        | r => r)
                 | _ => (.panicked "Pattern doesn't match!",
                     rs₁.define nameTok.lexeme))
            | .none =>
                runR k
                  (((rs₁.define nameTok.lexeme)).beginScope.define "this")
                  (.rclassBody ms false rs.currentClass))
       | r => r)
  | _ + 1, rs, .rmethods .nil => (.ok (), rs)
  | k + 1, rs, .rmethods (.cons m t) =>
      (match m with
       | .funDecl n ps b =>
           (match runR k rs
               (.rfunction ps b
                 (if n = "init" then .initializer else .method)) with
            | (.ok _, rs₁) => runR k rs₁ (.rmethods t)
            | r => r)
       | _ => (.panicked "Pattern doesn't match!", rs))
  | k + 1, rs, .rclassBody ms hasSuper enclosingClass =>
      (match runR k rs (.rmethods ms) with
       | (.ok _, rs₁) =>
           let rs₂ := if hasSuper then rs₁.endScope.endScope else rs₁.endScope
           (.ok (), { rs₂ with currentClass := enclosingClass })
       | r => r)

/-! ## The `for` desugaring of the parser, from `src/parser.rs`

`Parser::for_stmt` first parses the optional initializer, optional
condition, optional increment and the body; lines 215-248 then assemble the
resulting statement.  `forDesugar` is that assembly, taking the parsed
components as arguments; the parser has no `For` AST node, so this is
exactly what a `for` statement becomes. -/

/-- The statement `Parser::for_stmt` builds from the parsed components. -/
def forDesugar (initializer : Option Stmt) (condition : Option Expr)
    (increment : Option Expr) (body : Stmt) : Stmt :=
  let body₁ : Stmt :=
    match increment with
    | some inc => .block (.cons body (.cons (.expression inc) .nil))
    | none => body
  let cond : Expr :=
    match condition with
    | some c => c
    | none => .literal (.bool true)
  let body₂ : Stmt := .whileS cond body₁
  match initializer with
  | some i => .block (.cons i (.cons body₂ .nil))
  | none => body₂

/-- Modelled from the spec (§4.2): "`for (init; cond; inc) body` desugars to
`{ init; while (cond) { body; inc; } }` with `true` default for an omitted
condition", omitting the block wrapper for an absent `init` and the body
wrapper for an absent `inc`. -/
def forDesugarSpec (initializer : Option Stmt) (condition : Option Expr)
    (increment : Option Expr) (body : Stmt) : Stmt :=
  let w : Stmt := .whileS
    (condition.getD (.literal (.bool true)))
    (match increment with
     | some inc => .block (.cons body (.cons (.expression inc) .nil))
     | none => body)
  match initializer with
  | some i => .block (.cons i (.cons w .nil))
  | none => w

/-! ## The bytecode VM, from `src/compiler/vm.rs` and
`src/compiler/value.rs`

The compiler (`src/compiler/compiler.rs`) only ever emits `Number` and
`String` constants, and no opcode constructs the `Value::Hashmap` variant,
so that variant (whose equality no theorem touches) is omitted.  The operand
stack is a `Vec` pushed/popped at the end, modelled as a bottom-first list;
local slots index it from the bottom, as in the source. -/

/-- `Value` from `src/compiler/value.rs` (minus the never-constructed
`Hashmap` variant). -/
inductive Value where
  | bool (b : Bool)
  | nil
  | number (n : Rat)
  | str (s : String)
deriving DecidableEq, Repr

/-- `Value::is_falsey`: nil and false are falsey, everything else truthy. -/
def Value.isFalsey : Value → Bool
  | .nil => true
  | .bool b => !b
  | _ => false

/-- `Value::is_number`. -/
def Value.isNumber : Value → Bool
  | .number _ => true
  | _ => false

/-- `Value::is_string`. -/
def Value.isString : Value → Bool
  | .str _ => true
  | _ => false

/-- `Value::as_number` (0 for non-numbers, as in the source). -/
def Value.asNumber : Value → Rat
  | .number n => n
  | _ => 0

/-- `Value::as_string` (empty for non-strings, as in the source). -/
def Value.asString : Value → String
  | .str s => s
  | _ => ""

/-- Derived `Debug` rendering of a `Value` (`OrderedFloat` renders as the
inner float). -/
def debugValue : Value → String
  | .bool b => "Bool(" ++ toString b ++ ")"
  | .nil => "Nil"
  | .number n => "Number(" ++ rustFloatDebug n ++ ")"
  | .str s => "String(" ++ rustStringDebug s ++ ")"

/-- `OpCode` as consumed by `VM::run` (constants inlined in the opcode;
global opcodes carry the name, local opcodes a stack slot, jumps an
offset). -/
inductive OpCode where
  | ret
  | negate
  | add
  | subtract
  | multiply
  | divide
  | constant (v : Value)
  | tru
  | fls
  | nil
  | not
  | equal
  | greater
  | less
  | print
  | pop
  | defineGlobal (name : String)
  | getGlobal (name : String)
  | setGlobal (name : String)
  | getLocal (idx : Nat)
  | setLocal (idx : Nat)
  | jumpIfFalse (offset : Nat)
  | jump (offset : Nat)
  | loop (offset : Nat)
deriving DecidableEq, Repr

/-- `InterpretResult`. -/
inductive InterpretResult where
  | interpOk
  | compileError
  | runtimeError
deriving DecidableEq, Repr

/-- The VM registers: code, instruction pointer, operand stack
(bottom-first), globals table, and the `println!` output. -/
structure VMState where
  code : List OpCode
  ip : Nat
  stack : List Value
  globals : List (String × Value)
  output : List String
deriving DecidableEq, Repr

/-- Outcome of a VM run: a returned `InterpretResult`, a panic, or fuel
exhaustion. -/
inductive VMRes where
  | done (r : InterpretResult)
  | panicked (msg : String)
  | fuel
deriving DecidableEq, Repr

/-- `Vec::pop` on the operand stack. -/
def VMState.popV (st : VMState) : Option (Value × VMState) :=
  match st.stack.getLast? with
  | some v => some (v, { st with stack := st.stack.dropLast })
  | none => none

/-- `Stack::push`. -/
def VMState.pushV (st : VMState) (v : Value) : VMState :=
  { st with stack := st.stack ++ [v] }

/-- `VM::runtime_error`: print the message and clear the stack. -/
def VMState.runtimeError (st : VMState) (msg : String) : VMState :=
  { st with output := st.output ++ [msg], stack := [] }

/-- `HashMap::get` on the globals table. -/
def lookupGlobal : List (String × Value) → String → Option Value
  | [], _ => none
  | (n, v) :: t, k => if n = k then some v else lookupGlobal t k

/-- `HashMap::insert` on the globals table. -/
def insertGlobal : List (String × Value) → String → Value →
    List (String × Value)
  | [], k, v => [(k, v)]
  | (n, w) :: t, k, v =>
      if n = k then (n, v) :: t else (n, w) :: insertGlobal t k v

/-- `VM::binary_op`: with fewer than two operands, report
`Stack underflow` (clearing the stack) and give control back to the loop;
with two numbers compute, with two strings concatenate on `Add`
(`unreachable!` for other opcodes, a panic); otherwise report
`Operands must be two numbers or two strings.` (clearing the stack) and
give control back to the loop.  The caller continues the dispatch loop in
every non-panic case. -/
def binaryOp (op : OpCode) (st : VMState) : Res VMState :=
  if st.stack.length < 2 then .ok (st.runtimeError "Stack underflow")
  else
    match st.popV with
    | none => .panicked "unwrap"
    | some (b, st₁) =>
        match st₁.popV with
        | none => .panicked "unwrap"
        | some (a, st₂) =>
            if a.isNumber && b.isNumber then
              match op with
              | .add => .ok (st₂.pushV (.number (fAdd a.asNumber b.asNumber)))
              | .subtract =>
                  .ok (st₂.pushV (.number (fSub a.asNumber b.asNumber)))
              | .multiply =>
                  .ok (st₂.pushV (.number (fMul a.asNumber b.asNumber)))
              | .divide =>
                  .ok (st₂.pushV (.number (fDiv a.asNumber b.asNumber)))
              | .less =>
                  .ok (st₂.pushV (.bool (fLt a.asNumber b.asNumber)))
              | .greater =>
                  .ok (st₂.pushV (.bool (fLt b.asNumber a.asNumber)))
              | _ => .panicked "unreachable"
            else if a.isString && b.isString then
              match op with
              | .add => .ok (st₂.pushV (.str (a.asString ++ b.asString)))
              | _ => .panicked "unreachable"
            else
              .ok (st₂.runtimeError
                "Operands must be two numbers or two strings.")

/-- `VM::run`: fetch the opcode at `ip` (out of bounds is a `Vec` index
panic), advance `ip`, dispatch.  Each loop iteration consumes one unit of
fuel. -/
def runVM : Nat → VMState → VMRes × VMState
  | 0, st => (.fuel, st)
  | k + 1, st =>
      match st.code.get? st.ip with
      | none => (.panicked "index out of bounds", st)
      | some instr =>
          let st := { st with ip := st.ip + 1 }
          match instr with
          | .ret => (.done .interpOk, st)
          | .negate =>
              (match st.popV with
               | some (.number n, st₁) =>
                   runVM k ({ st₁.pushV (.number (fNeg n)) with
                     output := (st₁.pushV (.number (fNeg n))).output ++
                       ["Number(" ++ rustFloatDebug n ++ ")"] })
               | _ => (.done .runtimeError, st))
          | .add =>
              (match binaryOp .add st with
               | .ok st₁ => runVM k st₁
               | _ => (.panicked "unreachable", st))
          | .subtract =>
              (match binaryOp .subtract st with
               | .ok st₁ => runVM k st₁
               | _ => (.panicked "unreachable", st))
          | .multiply =>
              (match binaryOp .multiply st with
               | .ok st₁ => runVM k st₁
               | _ => (.panicked "unreachable", st))
          | .divide =>
              (match binaryOp .divide st with
               | .ok st₁ => runVM k st₁
               | _ => (.panicked "unreachable", st))
          | .constant v => runVM k (st.pushV v)
          | .tru => runVM k (st.pushV (.bool true))
          | .fls => runVM k (st.pushV (.bool false))
          | .nil => runVM k (st.pushV .nil)
          | .not =>
              (match st.popV with
               | some (v, st₁) => runVM k (st₁.pushV (.bool (!v.isFalsey)))
               | none => (.panicked "unwrap", st))
          | .equal =>
              (match st.popV with
               | some (b, st₁) =>
                   (match st₁.popV with
                    | some (a, st₂) =>
                        runVM k (st₂.pushV (.bool (a = b)))
                    | none => (.panicked "unwrap", st₁))
               | none => (.panicked "unwrap", st))
          | .greater =>
              (match binaryOp .greater st with
               | .ok st₁ => runVM k st₁
               | _ => (.panicked "unreachable", st))
          | .less =>
              (match binaryOp .less st with
               | .ok st₁ => runVM k st₁
               | _ => (.panicked "unreachable", st))
          | .print =>
              (match st.popV with
               | some (v, st₁) =>
                   runVM k { st₁ with
                     output := st₁.output ++ ["Print: " ++ debugValue v] }
               | none => (.panicked "unwrap", st))
          | .pop =>
              (match st.popV with
               | some (_, st₁) => runVM k st₁
               | none => (.panicked "unwrap", st))
          | .defineGlobal name =>
              (match st.popV with
               | some (v, st₁) =>
                   runVM k { st₁ with
                     globals := insertGlobal st₁.globals name v }
               | none => (.panicked "unwrap", st))
          | .getGlobal name =>
              (match lookupGlobal st.globals name with
               | some v => runVM k (st.pushV v)
               | none =>
                   (.done .runtimeError,
                    st.runtimeError
                      ("Undefined variable (get) '" ++ name ++ "'.")))
          | .setGlobal name =>
              (match lookupGlobal st.globals name with
               | some _ =>
                   (match st.popV with
                    | some (v, st₁) =>
                        runVM k { st₁ with
                          globals := insertGlobal st₁.globals name v }
                    | none => (.panicked "unwrap", st))
               | none =>
                   (.done .runtimeError,
                    st.runtimeError
                      ("Undefined variable (set) '" ++ name ++ "'.")))
          | .getLocal idx =>
              (match st.stack.get? idx with
               | some v => runVM k (st.pushV v)
               | none => (.panicked "index out of bounds", st))
          | .setLocal idx =>
              (match st.stack.get? 0 with
               | some v =>
                   if idx < st.stack.length then
                     runVM k { st with stack := st.stack.set idx v }
                   else (.panicked "index out of bounds", st)
               | none => (.panicked "index out of bounds", st))
          | .jumpIfFalse offset =>
              (match st.popV with
               | some (v, st₁) =>
                   if v.isFalsey then
                     runVM k { st₁ with ip := st₁.ip + offset }
                   else runVM k st₁
               | none => (.panicked "unwrap", st))
          | .jump offset => runVM k { st with ip := st.ip + offset }
          | .loop offset =>
              if offset ≤ st.ip then runVM k { st with ip := st.ip - offset }
              else (.panicked "attempt to subtract with overflow", st)

def FramesExt (s s' : State) : Prop :=
  s.frames.length ≤ s'.frames.length ∧
  ∀ i fr, s.frames.get? i = some fr →
    ∃ fr', s'.frames.get? i = some fr' ∧ fr'.enclosing = fr.enclosing

/-- `Res` outcome is `Ok`. -/
def Res.isOk {α : Type} : Res α → Bool
  | .ok _ => true
  | _ => false

/-- The induction hypothesis shape of the store/environment invariant: any
evaluation only grows the arena (preserving `enclosing` pointers), and any
`Ok` outcome leaves the current environment unchanged. -/
def RunInv (k : Nat) : Prop :=
  ∀ (s : State) (j : Job) (r : Res (OutTy j)) (s' : State),
    run k s j = (r, s') →
    FramesExt s s' ∧ (r.isOk = true → s'.env = s.env)

/-! ## Claim-side definitions and concrete fixtures -/

/-- Modelled from the amended C2 claim: the domain and value of `==` — two
functions compare by name and parameter list; two classes by name; two
literals of the same kind by payload (`nil == nil` is true); any remaining
pair with `Nil` on either side compares false; every other pair
(including two instances) is undefined (`none`, a runtime error). -/
def eqComparable : Expr → Expr → Option Bool
  | .fn (.mk n1 p1 _ _ _), .fn (.mk n2 p2 _ _ _) =>
      some (n1 = n2 && p1 = p2)
  | .cls (.mk n1 _ _), .cls (.mk n2 _ _) => some (n1 = n2)
  | .literal (.bool l), .literal (.bool r) => some (l = r)
  | .literal (.number l), .literal (.number r) => some (l = r)
  | .literal (.str l), .literal (.str r) => some (l = r)
  | .literal .nil, .literal .nil => some true
  | .literal .nil, _ => some false
  | _, .literal .nil => some false
  | _, _ => none

/-- Modelled from the amended C2 claim: the domain and value of `!=` —
defined only for same-kind `Bool`/`Number`/`Str` pairs; everything else
(including `nil != nil`) is undefined (`none`, a runtime error). -/
def neqComparable : Expr → Expr → Option Bool
  | .literal (.bool l), .literal (.bool r) => some (l ≠ r)
  | .literal (.number l), .literal (.number r) => some (l ≠ r)
  | .literal (.str l), .literal (.str r) => some (l ≠ r)
  | _, _ => none

/-- A fresh interpreter: one empty global environment, no resolved locals,
`counter = 1`, no output (`Interpreter::new`). -/
def initState : State := ⟨[⟨[], none⟩], some 0, [], 1, []⟩

/-- `print 1 + 2 * 3;` -/
def arithPrintProg : Stmt :=
  .print (.binary (.literal (.number (ratInt 1))) .plus
    (.binary (.literal (.number (ratInt 2))) .star
      (.literal (.number (ratInt 3)))))

/-- `print nil or "ok";` -/
def orPrintProg : Stmt :=
  .print (.logical (.literal .nil) .orOp (.literal (.str "ok")))

/-- `{ fun g() { x; } g(); }` — a block whose second statement calls the
locally declared `g`, whose body reads the undefined `x`. -/
def blockErrProg : Stmt :=
  .block (.cons
    (.funDecl "g" [] (.cons (.expression (.var (identTok "x"))) .nil))
    (.cons (.expression (.call (.var (identTok "g"))
      ⟨TokenType.rightParen, ")", none, 1⟩ .nil)) .nil))

/-- The locals table the resolver computes for `blockErrProg`: the call's
callee `g` resolves to depth 0 (its own block scope); the read of `x`
resolves nowhere. -/
def blockErrLocals : List (Expr × Nat) := [(.var (identTok "g"), 0)]

/-- A fresh interpreter carrying `blockErrLocals`. -/
def blockErrState : State := ⟨[⟨[], none⟩], some 0, blockErrLocals, 1, []⟩

/-- `{ expression nil; }` — a block that completes normally. -/
def blockOkProg : Stmt :=
  .block (.cons (.expression (.literal .nil)) .nil)

/-- `{ zz; }` — a block whose single statement reads an undefined global. -/
def blockUndefProg : StmtList :=
  .cons (.expression (.var (identTok "zz"))) .nil

/-- `var a = 1; { var a = a; }` -/
def selfInitProg : StmtList :=
  .cons (.varDecl "a" (.literal (.number (ratInt 1))))
    (.cons (.block (.cons (.varDecl "a" (.var (identTok "a"))) .nil)) .nil)

/-- The class `A` with no methods and no superclass. -/
def classA : ClassV := .mk "A" .nil .none

/-- An instance of `A` with no fields. -/
def instInner : InstanceV := .mk classA .nil

/-- An instance of `A` whose field `b` holds `instInner`. -/
def instOuter : InstanceV := .mk classA (.cons "b" (.inst instInner) .nil)

/-- A state whose global environment binds `a` to `instOuter`. -/
def chainedSetState : State :=
  ⟨[⟨[("a", .inst instOuter)], none⟩], some 0, [], 1, []⟩

/-- The object expression `a.b` of the chained assignment `a.b.c = 1`. -/
def chainedObj : Expr := .get (.var (identTok "a")) (identTok "b")

/-- The chained assignment `a.b.c = 1`. -/
def chainedSetExpr : Expr :=
  .set chainedObj (identTok "c") (.literal (.number (ratInt 1)))

/-- An initializer `Function` (empty body) captured in frame 1. -/
def initFn : FunctionV := .mk "init" [] .nil (some 1) true

/-- A non-initializer `Function` (empty body) captured in frame 1. -/
def plainFn : FunctionV := .mk "f" [] .nil (some 1) false

/-- A state whose frame 1 (a `bind` frame) maps `this` to `instInner`. -/
def boundCallState : State :=
  ⟨[⟨[], none⟩, ⟨[("this", .inst instInner)], some 0⟩], some 0, [], 1, []⟩

/-- The chunk `1; true; +; return` — a binary type error followed by
`Return`. -/
def vmTypeErrState : VMState :=
  ⟨[.constant (.number (ratInt 1)), .constant (.bool true), .add, .ret],
    0, [], [], []⟩

/-- A chunk that reads the undefined global `x`. -/
def vmUndefGlobalState : VMState := ⟨[.getGlobal "x"], 0, [], [], []⟩

/-- The arithmetic opcodes routed through `VM::binary_op`. -/
def isBinaryArith : OpCode → Bool
  | .add => true
  | .subtract => true
  | .multiply => true
  | .divide => true
  | .greater => true
  | .less => true
  | _ => false



/-! ## Invariant lemmas for the interpreter store -/

theorem getFrame_lt {s : State} {i : Nat} {fr : Frame}
    (h : s.getFrame i = some fr) : i < s.frames.length := by
  by_contra hcon
  push_neg at hcon
  rw [State.getFrame, List.get?_eq_none.mpr hcon] at h
  cases h

theorem framesExt_refl (s : State) : FramesExt s s :=
  ⟨le_refl _, fun _ fr h => ⟨fr, h, rfl⟩⟩

theorem framesExt_trans {s₁ s₂ s₃ : State} (h₁ : FramesExt s₁ s₂)
    (h₂ : FramesExt s₂ s₃) : FramesExt s₁ s₃ := by
  refine ⟨le_trans h₁.1 h₂.1, fun i fr h => ?_⟩
  obtain ⟨fr', hg, he⟩ := h₁.2 i fr h
  obtain ⟨fr'', hg', he'⟩ := h₂.2 i fr' hg
  exact ⟨fr'', hg', he'.trans he⟩

theorem framesExt_of_frames_eq {s s' : State} (h : s'.frames = s.frames) :
    FramesExt s s' := by
  refine ⟨by rw [h], fun i fr hi => ⟨fr, ?_, rfl⟩⟩
  rw [h]; exact hi

theorem framesExt_setFrame_define (s : State) (i : Nat) (fr : Frame)
    (hget : s.getFrame i = some fr) (n : String) (v : Expr) :
    FramesExt s (s.setFrame i (fr.define n v)) := by
  constructor
  · simp [State.setFrame]
  · intro j fr₀ hj
    by_cases hij : i = j
    · subst hij
      refine ⟨fr.define n v, ?_, ?_⟩
      · simp only [State.setFrame, List.get?_eq_getElem?]
        exact List.getElem?_set_eq_of_lt _ (getFrame_lt hget)
      · simp only [State.getFrame] at hget hj
        rw [hget] at hj
        cases hj
        simp [Frame.define]
    · refine ⟨fr₀, ?_, rfl⟩
      simp only [State.setFrame, List.get?_eq_getElem?]
      rw [List.getElem?_set_ne hij]
      rw [List.get?_eq_getElem?] at hj
      exact hj

theorem framesExt_alloc (s : State) (fr : Frame) :
    FramesExt s (allocFrame s fr).2 := by
  constructor
  · simp [allocFrame]
  · intro i fr₀ hi
    refine ⟨fr₀, ?_, rfl⟩
    have hlt : i < s.frames.length := getFrame_lt (s := s) (i := i) hi
    simp only [allocFrame, List.get?_eq_getElem?]
    rw [List.getElem?_append_left hlt]
    rw [List.get?_eq_getElem?] at hi
    exact hi

theorem framesExt_assignSymbolAt (s : State) (d : Nat) (n : String)
    (v : Expr) : FramesExt s (s.assignSymbolAt d n v) := by
  unfold State.assignSymbolAt
  split
  · split
    · next fr hfr => exact framesExt_setFrame_define s _ fr hfr n v
    · exact framesExt_refl s
  · exact framesExt_refl s


theorem setFrame_env (s : State) (i : Nat) (fr : Frame) :
    (s.setFrame i fr).env = s.env := rfl

theorem assignSymbolAt_env (s : State) (d : Nat) (n : String) (v : Expr) :
    (s.assignSymbolAt d n v).env = s.env := by
  unfold State.assignSymbolAt
  split
  · split <;> rfl
  · rfl

theorem lookupSymbol_state (s : State) (n : String) (k : Expr) :
    (lookupSymbol s n k).2 = s := by
  unfold lookupSymbol
  split
  · rfl
  · split
    · rfl
    · split
      · rfl
      · split <;> rfl

theorem defineSymbol_inv {s s' : State} {n : String} {v : Expr}
    (h : s.defineSymbol n v = some s') :
    FramesExt s s' ∧ s'.env = s.env := by
  unfold State.defineSymbol at h
  split at h
  · cases h
  · next e _ =>
      split at h
      · cases h
      · next fr hfr =>
          cases h
          exact ⟨framesExt_setFrame_define s e fr hfr n v, rfl⟩

theorem dropEnvironment_inv {s s' : State}
    (h : s.dropEnvironment = some s') :
    s'.frames = s.frames ∧
    ∃ e fr p, s.env = some e ∧ s.getFrame e = some fr ∧
      fr.enclosing = some p ∧ s'.env = some p := by
  unfold State.dropEnvironment at h
  split at h
  · cases h
  · next e he =>
      split at h
      · cases h
      · next fr hfr =>
          split at h
          · cases h
          · next p hp =>
              cases h
              exact ⟨rfl, e, fr, p, he, hfr, hp, rfl⟩

theorem framesExt_env_eq {s : State} {e : Option Nat} :
    FramesExt s { s with env := e } :=
  framesExt_of_frames_eq rfl

theorem alloc_env (s : State) (fr : Frame) :
    (allocFrame s fr).2.env = s.env := rfl

theorem bindFunction_inv (f : FunctionV) (i : InstanceV) (s : State) :
    FramesExt s (bindFunction f i s).2 ∧
      (bindFunction f i s).2.env = s.env := by
  unfold bindFunction
  exact ⟨framesExt_alloc s _, rfl⟩

theorem getField_inv {i : InstanceV} {n : String} {s : State}
    {r : Res Expr} {s' : State} (h : getField i n s = (r, s')) :
    FramesExt s s' ∧ s'.env = s.env := by
  unfold getField at h
  split at h
  · cases h; exact ⟨framesExt_refl s, rfl⟩
  · split at h
    · cases h
      exact ⟨(bindFunction_inv _ _ s).1, (bindFunction_inv _ _ s).2⟩
    · cases h; exact ⟨framesExt_refl s, rfl⟩
    · cases h; exact ⟨framesExt_refl s, rfl⟩

theorem setFinish_inv {s : State} {d : Option Nat} {n : String}
    {i : InstanceV} {w : Expr} {r : Res (Option Expr)} {s' : State}
    (h : setFinish s d n i w = (r, s')) :
    FramesExt s s' ∧ s'.env = s.env := by
  unfold setFinish at h
  split at h
  · cases h
    exact ⟨framesExt_assignSymbolAt s _ n (.inst i), assignSymbolAt_env ..⟩
  · split at h
    · cases h; exact ⟨framesExt_refl s, rfl⟩
    · split at h
      · cases h; exact ⟨framesExt_refl s, rfl⟩
      · next fr hfr =>
          cases h
          exact ⟨framesExt_setFrame_define s _ fr hfr n (.inst i), rfl⟩

theorem classFinish_inv {s : State} {tok : Token} {ms : StmtList}
    {env : Option Nat} {asc : OptExpr} {r : Res (Option Stmt)} {s' : State}
    (h : classFinish s tok ms env asc = (r, s')) :
    FramesExt s s' ∧ s'.env = s.env := by
  unfold classFinish at h
  split at h
  · cases h; exact ⟨framesExt_refl s, rfl⟩
  · split at h
    · next s₁ hdef =>
        cases h
        exact defineSymbol_inv hdef
    · cases h; exact ⟨framesExt_refl s, rfl⟩

theorem newEnvironment_env (s : State) :
    (s.newEnvironment none).env = some s.frames.length := rfl

theorem framesExt_newEnvironment (s : State) :
    FramesExt s (s.newEnvironment none) := by
  unfold State.newEnvironment
  have h := framesExt_alloc s ⟨[], s.createEnclosing none⟩
  exact framesExt_trans h (framesExt_of_frames_eq rfl)

theorem newEnvironment_getFrame_new (s : State) :
    (s.newEnvironment none).getFrame s.frames.length =
      some ⟨[], s.env⟩ := by
  unfold State.newEnvironment allocFrame State.getFrame State.createEnclosing
  simp





theorem runInv_succ_expr (k : Nat) (ih : RunInv k) (s : State) (e : Expr)
    (r : Res (Option Expr)) (s' : State)
    (h : run (k + 1) s (.expr e) = (r, s')) :
    FramesExt s s' ∧ (r.isOk = true → s'.env = s.env) := by
  cases e with
  | literal l =>
      simp only [run] at h
      cases h
      exact ⟨framesExt_refl s, fun _ => rfl⟩
  | var t =>
      simp only [run] at h
      have h2 := congrArg Prod.snd h
      simp only [lookupSymbol_state] at h2
      subst h2
      exact ⟨framesExt_refl _, fun _ => rfl⟩
  | this t =>
      simp only [run] at h
      have h2 := congrArg Prod.snd h
      simp only [lookupSymbol_state] at h2
      subst h2
      exact ⟨framesExt_refl _, fun _ => rfl⟩
  | sup kw m =>
      simp only [run] at h
      repeat' split at h
      all_goals cases h
      all_goals
        first
        | exact ⟨framesExt_refl _, fun _ => rfl⟩
        | exact ⟨(bindFunction_inv _ _ _).1,
            fun _ => (bindFunction_inv _ _ _).2⟩
  | fn f =>
      simp only [run] at h; cases h
      exact ⟨framesExt_refl s, fun _ => rfl⟩
  | inst i =>
      simp only [run] at h; cases h
      exact ⟨framesExt_refl s, fun _ => rfl⟩
  | cls c =>
      simp only [run] at h; cases h
      exact ⟨framesExt_refl s, fun _ => rfl⟩
  | grouping g =>
      simp only [run] at h
      exact ih s (.expr g) r s' h
  | assign t v =>
      simp only [run] at h
      split at h
      · rcases hr : run k s (.expr v) with ⟨r₁, s₁⟩
        rw [hr] at h
        obtain ⟨e1, v1⟩ := ih s (.expr v) r₁ s₁ hr
        rcases r₁ with o | m | m | _
        · rcases o with _ | w
          · cases h; exact ⟨e1, by simp [Res.isOk]⟩
          · simp only [] at h
            split at h
            · cases h
              refine ⟨framesExt_trans e1 (framesExt_assignSymbolAt ..), ?_⟩
              intro _
              rw [assignSymbolAt_env]
              exact v1 rfl
            · split at h
              · cases h; exact ⟨e1, by simp [Res.isOk]⟩
              · split at h
                · cases h; exact ⟨e1, by simp [Res.isOk]⟩
                · next fr hfr =>
                    cases h
                    refine ⟨framesExt_trans e1
                      (framesExt_setFrame_define _ _ fr hfr ..), ?_⟩
                    intro _
                    rw [setFrame_env]
                    exact v1 rfl
        · cases h; exact ⟨e1, by simp [Res.isOk]⟩
        · cases h; exact ⟨e1, by simp [Res.isOk]⟩
        · cases h; exact ⟨e1, by simp [Res.isOk]⟩
      · cases h
        exact ⟨framesExt_refl s, by simp [Res.isOk]⟩
  | unary op rr =>
      simp only [run] at h
      rcases hr : run k s (.expr rr) with ⟨r₁, s₁⟩
      rw [hr] at h
      obtain ⟨e1, v1⟩ := ih s (.expr rr) r₁ s₁ hr
      rcases r₁ with o | m | m | _
      · rcases o with _ | w
        · cases h; exact ⟨e1, by simp [Res.isOk]⟩
        · cases h
          exact ⟨e1, fun _ => v1 rfl⟩
      · cases h; exact ⟨e1, by simp [Res.isOk]⟩
      · cases h; exact ⟨e1, by simp [Res.isOk]⟩
      · cases h; exact ⟨e1, by simp [Res.isOk]⟩
  | binary l op rr =>
      simp only [run] at h
      rcases hr : run k s (.expr l) with ⟨r₁, s₁⟩
      rw [hr] at h
      obtain ⟨e1, v1⟩ := ih s (.expr l) r₁ s₁ hr
      rcases r₁ with o | m | m | _
      · rcases o with _ | lv
        · cases h; exact ⟨e1, by simp [Res.isOk]⟩
        · simp only [] at h
          rcases hr2 : run k s₁ (.expr rr) with ⟨r₂, s₂⟩
          rw [hr2] at h
          obtain ⟨e2, v2⟩ := ih s₁ (.expr rr) r₂ s₂ hr2
          rcases r₂ with o | m | m | _
          · rcases o with _ | rv
            · cases h; exact ⟨framesExt_trans e1 e2, by simp [Res.isOk]⟩
            · cases h
              exact ⟨framesExt_trans e1 e2, fun _ => (v2 rfl).trans (v1 rfl)⟩
          · cases h; exact ⟨framesExt_trans e1 e2, by simp [Res.isOk]⟩
          · cases h; exact ⟨framesExt_trans e1 e2, by simp [Res.isOk]⟩
          · cases h; exact ⟨framesExt_trans e1 e2, by simp [Res.isOk]⟩
      · cases h; exact ⟨e1, by simp [Res.isOk]⟩
      · cases h; exact ⟨e1, by simp [Res.isOk]⟩
      · cases h; exact ⟨e1, by simp [Res.isOk]⟩
  | logical l op rr =>
      simp only [run] at h
      rcases hr : run k s (.expr l) with ⟨r₁, s₁⟩
      rw [hr] at h
      obtain ⟨e1, v1⟩ := ih s (.expr l) r₁ s₁ hr
      rcases r₁ with o | m | m | _
      · simp only [] at h
        split at h
        · cases h; exact ⟨e1, fun _ => v1 rfl⟩
        · rcases hr2 : run k s₁ (.expr rr) with ⟨r₂, s₂⟩
          rw [hr2] at h
          obtain ⟨e2, v2⟩ := ih s₁ (.expr rr) r₂ s₂ hr2
          rcases r₂ with o | m | m | _
          all_goals cases h
          · exact ⟨framesExt_trans e1 e2, fun _ => (v2 rfl).trans (v1 rfl)⟩
          · exact ⟨framesExt_trans e1 e2, by simp [Res.isOk]⟩
          · exact ⟨framesExt_trans e1 e2, by simp [Res.isOk]⟩
          · exact ⟨framesExt_trans e1 e2, by simp [Res.isOk]⟩
      · cases h; exact ⟨e1, by simp [Res.isOk]⟩
      · cases h; exact ⟨e1, by simp [Res.isOk]⟩
      · cases h; exact ⟨e1, by simp [Res.isOk]⟩
  | get obj name =>
      simp only [run] at h
      rcases hr : run k s (.expr obj) with ⟨r₁, s₁⟩
      rw [hr] at h
      obtain ⟨e1, v1⟩ := ih s (.expr obj) r₁ s₁ hr
      rcases r₁ with o | m | m | _
      · rcases o with _ | ov
        · cases h; exact ⟨e1, by simp [Res.isOk]⟩
        · cases ov
          case inst i =>
            simp only [] at h
            rcases hg : getField i name.lexeme s₁ with ⟨r₂, s₂⟩
            rw [hg] at h
            obtain ⟨e2, v2⟩ := getField_inv hg
            rcases r₂ with w | m | m | _
            all_goals cases h
            · exact ⟨framesExt_trans e1 e2, fun _ => v2.trans (v1 rfl)⟩
            · exact ⟨framesExt_trans e1 e2, by simp [Res.isOk]⟩
            · exact ⟨framesExt_trans e1 e2, by simp [Res.isOk]⟩
            · exact ⟨framesExt_trans e1 e2, by simp [Res.isOk]⟩
          all_goals (cases h; exact ⟨e1, by simp [Res.isOk]⟩)
      · cases h; exact ⟨e1, by simp [Res.isOk]⟩
      · cases h; exact ⟨e1, by simp [Res.isOk]⟩
      · cases h; exact ⟨e1, by simp [Res.isOk]⟩
  | set obj name val =>
      simp only [run] at h
      rcases hr : run k s (.expr obj) with ⟨r₁, s₁⟩
      rw [hr] at h
      obtain ⟨e1, v1⟩ := ih s (.expr obj) r₁ s₁ hr
      rcases r₁ with o | m | m | _
      · rcases o with _ | ov
        · cases h; exact ⟨e1, by simp [Res.isOk]⟩
        · cases ov
          case inst i =>
            simp only [] at h
            rcases hr2 : run k s₁ (.expr val) with ⟨r₂, s₂⟩
            rw [hr2] at h
            obtain ⟨e2, v2⟩ := ih s₁ (.expr val) r₂ s₂ hr2
            rcases r₂ with o | m | m | _
            · rcases o with _ | w
              · cases h; exact ⟨framesExt_trans e1 e2, by simp [Res.isOk]⟩
              · simp only [] at h
                split at h
                · rcases hsf : setFinish s₂ (lookupLocals s₂.locals obj) _
                      (i.setField name.lexeme w) w with ⟨r₃, s₃⟩
                  rw [hsf] at h
                  obtain ⟨e3, v3⟩ := setFinish_inv hsf
                  cases h
                  exact ⟨framesExt_trans e1 (framesExt_trans e2 e3),
                    fun _ => v3.trans ((v2 rfl).trans (v1 rfl))⟩
                · cases h
                  exact ⟨framesExt_trans e1 (framesExt_trans e2
                    (framesExt_of_frames_eq rfl)), by simp [Res.isOk]⟩
            · cases h; exact ⟨framesExt_trans e1 e2, by simp [Res.isOk]⟩
            · cases h; exact ⟨framesExt_trans e1 e2, by simp [Res.isOk]⟩
            · cases h; exact ⟨framesExt_trans e1 e2, by simp [Res.isOk]⟩
          all_goals (cases h; exact ⟨e1, by simp [Res.isOk]⟩)
      · cases h; exact ⟨e1, by simp [Res.isOk]⟩
      · cases h; exact ⟨e1, by simp [Res.isOk]⟩
      · cases h; exact ⟨e1, by simp [Res.isOk]⟩
  | call callee paren argl =>
      simp only [run] at h
      rcases hr : run k s (.expr callee) with ⟨r₁, s₁⟩
      rw [hr] at h
      obtain ⟨e1, v1⟩ := ih s (.expr callee) r₁ s₁ hr
      rcases r₁ with o | m | m | _
      · rcases o with _ | cv
        · cases h; exact ⟨e1, by simp [Res.isOk]⟩
        · simp only [] at h
          rcases ha : run k s₁ (.args argl) with ⟨r₂, s₂⟩
          rw [ha] at h
          obtain ⟨e2, v2⟩ := ih s₁ (.args argl) r₂ s₂ ha
          rcases r₂ with argv | m | m | _
          · have e12 := framesExt_trans e1 e2
            have v12 : s₂.env = s.env := (v2 rfl).trans (v1 rfl)
            cases cv
            case fn f =>
              simp only [] at h
              split at h
              · rcases hc : run k s₂ (.callFun f argv) with ⟨r₃, s₃⟩
                rw [hc] at h
                obtain ⟨e3, v3⟩ := ih s₂ (.callFun f argv) r₃ s₃ hc
                rcases r₃ with w | m | m | _
                all_goals cases h
                · exact ⟨framesExt_trans e12 e3, fun _ => (v3 rfl).trans v12⟩
                · exact ⟨framesExt_trans e12 e3, by simp [Res.isOk]⟩
                · exact ⟨framesExt_trans e12 e3, by simp [Res.isOk]⟩
                · exact ⟨framesExt_trans e12 e3, by simp [Res.isOk]⟩
              · cases h; exact ⟨e12, by simp [Res.isOk]⟩
            case cls c =>
              simp only [] at h
              rcases hc : run k s₂ (.callClass c argv) with ⟨r₃, s₃⟩
              rw [hc] at h
              obtain ⟨e3, v3⟩ := ih s₂ (.callClass c argv) r₃ s₃ hc
              rcases r₃ with w | m | m | _
              all_goals cases h
              · exact ⟨framesExt_trans e12 e3, fun _ => (v3 rfl).trans v12⟩
              · exact ⟨framesExt_trans e12 e3, by simp [Res.isOk]⟩
              · exact ⟨framesExt_trans e12 e3, by simp [Res.isOk]⟩
              · exact ⟨framesExt_trans e12 e3, by simp [Res.isOk]⟩
            all_goals (cases h; exact ⟨e12, by simp [Res.isOk]⟩)
          · cases h; exact ⟨framesExt_trans e1 e2, by simp [Res.isOk]⟩
          · cases h; exact ⟨framesExt_trans e1 e2, by simp [Res.isOk]⟩
          · cases h; exact ⟨framesExt_trans e1 e2, by simp [Res.isOk]⟩
      · cases h; exact ⟨e1, by simp [Res.isOk]⟩
      · cases h; exact ⟨e1, by simp [Res.isOk]⟩
      · cases h; exact ⟨e1, by simp [Res.isOk]⟩


theorem runInv_succ_stmt (k : Nat) (ih : RunInv k) (s : State) (st : Stmt)
    (r : Res (Option Stmt)) (s' : State)
    (h : run (k + 1) s (.stmt st) = (r, s')) :
    FramesExt s s' ∧ (r.isOk = true → s'.env = s.env) := by
  cases st with
  | expression e =>
      simp only [run] at h
      rcases hr : run k s (.expr e) with ⟨r₁, s₁⟩
      rw [hr] at h
      obtain ⟨e1, v1⟩ := ih s (.expr e) r₁ s₁ hr
      rcases r₁ with o | m | m | _
      all_goals cases h
      · exact ⟨e1, fun _ => v1 rfl⟩
      · exact ⟨e1, by simp [Res.isOk]⟩
      · exact ⟨e1, by simp [Res.isOk]⟩
      · exact ⟨e1, by simp [Res.isOk]⟩
  | print e =>
      simp only [run] at h
      rcases hr : run k s (.expr e) with ⟨r₁, s₁⟩
      rw [hr] at h
      obtain ⟨e1, v1⟩ := ih s (.expr e) r₁ s₁ hr
      rcases r₁ with o | m | m | _
      all_goals cases h
      · exact ⟨framesExt_trans e1 (framesExt_of_frames_eq rfl),
          fun _ => v1 rfl⟩
      · exact ⟨e1, by simp [Res.isOk]⟩
      · exact ⟨e1, by simp [Res.isOk]⟩
      · exact ⟨e1, by simp [Res.isOk]⟩
  | varDecl n e =>
      simp only [run] at h
      rcases hr : run k s (.expr e) with ⟨r₁, s₁⟩
      rw [hr] at h
      obtain ⟨e1, v1⟩ := ih s (.expr e) r₁ s₁ hr
      rcases r₁ with o | m | m | _
      · rcases o with _ | v
        · cases h; exact ⟨e1, by simp [Res.isOk]⟩
        · simp only [] at h
          split at h
          · next s₂ hdef =>
              cases h
              obtain ⟨e2, v2⟩ := defineSymbol_inv hdef
              exact ⟨framesExt_trans e1 e2, fun _ => v2.trans (v1 rfl)⟩
          · cases h; exact ⟨e1, by simp [Res.isOk]⟩
      · cases h; exact ⟨e1, by simp [Res.isOk]⟩
      · cases h; exact ⟨e1, by simp [Res.isOk]⟩
      · cases h; exact ⟨e1, by simp [Res.isOk]⟩
  | ifS c bt bf =>
      simp only [run] at h
      rcases hr : run k s (.expr c) with ⟨r₁, s₁⟩
      rw [hr] at h
      obtain ⟨e1, v1⟩ := ih s (.expr c) r₁ s₁ hr
      rcases r₁ with o | m | m | _
      · simp only [] at h
        split at h
        · obtain ⟨e2, v2⟩ := ih s₁ (.stmt bt) r s' h
          exact ⟨framesExt_trans e1 e2, fun ho => (v2 ho).trans (v1 rfl)⟩
        · obtain ⟨e2, v2⟩ := ih s₁ (.stmt bf) r s' h
          exact ⟨framesExt_trans e1 e2, fun ho => (v2 ho).trans (v1 rfl)⟩
        · cases h; exact ⟨e1, by simp [Res.isOk]⟩
      · cases h; exact ⟨e1, by simp [Res.isOk]⟩
      · cases h; exact ⟨e1, by simp [Res.isOk]⟩
      · cases h; exact ⟨e1, by simp [Res.isOk]⟩
  | whileS c b =>
      simp only [run] at h
      rcases hr : run k s (.expr c) with ⟨r₁, s₁⟩
      rw [hr] at h
      obtain ⟨e1, v1⟩ := ih s (.expr c) r₁ s₁ hr
      rcases r₁ with o | m | m | _
      · obtain ⟨e2, v2⟩ := ih s₁ (.whileGo c b o none) r s' h
        exact ⟨framesExt_trans e1 e2, fun ho => (v2 ho).trans (v1 rfl)⟩
      · cases h; exact ⟨e1, by simp [Res.isOk]⟩
      · cases h; exact ⟨e1, by simp [Res.isOk]⟩
      · cases h; exact ⟨e1, by simp [Res.isOk]⟩
  | block l =>
      simp only [run] at h
      rcases hr : run k (s.newEnvironment none)
          (.execBlock l (s.newEnvironment none).env) with ⟨r₁, s₂⟩
      rw [hr] at h
      obtain ⟨e1, v1⟩ := ih _ _ r₁ s₂ hr
      have eNew : FramesExt s (s.newEnvironment none) :=
        framesExt_newEnvironment s
      rcases r₁ with o | m | m | _
      · simp only [] at h
        split at h
        · next s₃ hdrop =>
            obtain ⟨hfr, e₀, fr, p, henv, hget, hencl, henv'⟩ :=
              dropEnvironment_inv hdrop
            have hs2env : s₂.env = some s.frames.length := by
              rw [v1 rfl, newEnvironment_env]
            have hfrnew := (framesExt_trans
              (framesExt_of_frames_eq (rfl :
                ((s.newEnvironment none)).frames =
                  (s.newEnvironment none).frames)) e1).2
              s.frames.length ⟨[], s.env⟩ (newEnvironment_getFrame_new s)
            obtain ⟨fr', hget', hencl'⟩ := hfrnew
            have he₀ : e₀ = s.frames.length := by
              rw [hs2env] at henv
              cases henv
              rfl
            subst he₀
            simp only [State.getFrame] at hget
            rw [hget'] at hget
            cases hget
            rw [hencl'] at hencl
            split at h
            all_goals cases h
            all_goals
              refine ⟨framesExt_trans eNew (framesExt_trans e1
                (framesExt_of_frames_eq hfr)), fun _ => ?_⟩
            all_goals rw [henv', ← hencl]
        · cases h
          exact ⟨framesExt_trans eNew e1, by simp [Res.isOk]⟩
      · simp only [] at h
        split at h
        · next s₃ hdrop =>
            cases h
            exact ⟨framesExt_trans eNew (framesExt_trans e1
              (framesExt_of_frames_eq (dropEnvironment_inv hdrop).1)),
              by simp [Res.isOk]⟩
        · cases h
          exact ⟨framesExt_trans eNew e1, by simp [Res.isOk]⟩
      · cases h; exact ⟨framesExt_trans eNew e1, by simp [Res.isOk]⟩
      · cases h; exact ⟨framesExt_trans eNew e1, by simp [Res.isOk]⟩
  | funDecl n ps b =>
      simp only [run] at h
      split at h
      · next s₁ hdef =>
          cases h
          obtain ⟨e1, v1⟩ := defineSymbol_inv hdef
          exact ⟨e1, fun _ => v1⟩
      · cases h
        exact ⟨framesExt_refl s, by simp [Res.isOk]⟩
  | ret kw v =>
      simp only [run] at h
      split at h
      · cases h
        exact ⟨framesExt_refl s, fun _ => rfl⟩
      · rcases hr : run k s (.expr v) with ⟨r₁, s₁⟩
        rw [hr] at h
        obtain ⟨e1, v1⟩ := ih s (.expr v) r₁ s₁ hr
        rcases r₁ with o | m | m | _
        · rcases o with _ | w
          · cases h; exact ⟨e1, by simp [Res.isOk]⟩
          · cases h; exact ⟨e1, fun _ => v1 rfl⟩
        · cases h; exact ⟨e1, by simp [Res.isOk]⟩
        · cases h; exact ⟨e1, by simp [Res.isOk]⟩
        · cases h; exact ⟨e1, by simp [Res.isOk]⟩
  | classDecl nameTok ms sc =>
      simp only [run] at h
      rcases sc with _ | scExpr
      · simp only [] at h
        rcases hc : classFinish s nameTok ms s.env .none with ⟨r₁, s₁⟩
        rw [hc] at h
        cases h
        obtain ⟨e1, v1⟩ := classFinish_inv hc
        exact ⟨e1, fun _ => v1⟩
      · simp only [] at h
        rcases hr : run k s (.expr scExpr) with ⟨r₁, s₁⟩
        rw [hr] at h
        obtain ⟨e1, v1⟩ := ih s (.expr scExpr) r₁ s₁ hr
        rcases r₁ with o | m | m | _
        · rcases o with _ | av
          · cases h; exact ⟨e1, by simp [Res.isOk]⟩
          · cases av
            case cls scv =>
              simp only [] at h
              rcases hc : classFinish
                  (allocFrame s₁ ⟨[("super", .cls scv)],
                    s₁.createEnclosing s.env⟩).2 nameTok ms
                  (some (allocFrame s₁ ⟨[("super", .cls scv)],
                    s₁.createEnclosing s.env⟩).1)
                  (.some (.cls scv)) with ⟨r₂, s₂⟩
              rw [hc] at h
              cases h
              obtain ⟨e2, v2⟩ := classFinish_inv hc
              refine ⟨framesExt_trans e1 (framesExt_trans
                (framesExt_alloc s₁ _) e2), fun _ => ?_⟩
              rw [v2, alloc_env]
              exact v1 rfl
            all_goals (cases h; exact ⟨e1, by simp [Res.isOk]⟩)
        · cases h; exact ⟨e1, by simp [Res.isOk]⟩
        · cases h; exact ⟨e1, by simp [Res.isOk]⟩
        · cases h; exact ⟨e1, by simp [Res.isOk]⟩


theorem runInv_succ_rest (k : Nat) (ih : RunInv k) (s : State) (j : Job)
    (r : Res (OutTy j)) (s' : State) (h : run (k + 1) s j = (r, s'))
    (hexpr : ∀ s e r s', run (k + 1) s (.expr e) = (r, s') →
      FramesExt s s' ∧ (Res.isOk r = true → s'.env = s.env))
    (hstmt : ∀ s st r s', run (k + 1) s (.stmt st) = (r, s') →
      FramesExt s s' ∧ (Res.isOk r = true → s'.env = s.env)) :
    FramesExt s s' ∧ (r.isOk = true → s'.env = s.env) := by
  cases j with
  | expr e => exact hexpr s e r s' h
  | stmt st => exact hstmt s st r s' h
  | stmtSeq l =>
      cases l with
      | nil =>
          simp only [run] at h
          cases h
          exact ⟨framesExt_refl s, fun _ => rfl⟩
      | cons st t =>
          simp only [run] at h
          rcases hr : run k s (.stmt st) with ⟨r₁, s₁⟩
          rw [hr] at h
          obtain ⟨e1, v1⟩ := ih s (.stmt st) r₁ s₁ hr
          rcases r₁ with o | m | m | _
          · rcases o with _ | rr
            · obtain ⟨e2, v2⟩ := ih s₁ (.stmtSeq t) r s' h
              exact ⟨framesExt_trans e1 e2, fun ho => (v2 ho).trans (v1 rfl)⟩
            · cases h; exact ⟨e1, fun _ => v1 rfl⟩
          · cases h; exact ⟨e1, by simp [Res.isOk]⟩
          · cases h; exact ⟨e1, by simp [Res.isOk]⟩
          · cases h; exact ⟨e1, by simp [Res.isOk]⟩
  | execBlock l envArg =>
      simp only [run] at h
      rcases hr : run k { s with env := envArg } (.stmtSeq l) with ⟨r₁, s₁⟩
      rw [hr] at h
      obtain ⟨e1, v1⟩ := ih _ (.stmtSeq l) r₁ s₁ hr
      have e0 : FramesExt s { s with env := envArg } := framesExt_env_eq
      rcases r₁ with o | m | m | _
      all_goals cases h
      · exact ⟨framesExt_trans e0 (framesExt_trans e1
          (framesExt_of_frames_eq rfl)), fun _ => rfl⟩
      · exact ⟨framesExt_trans e0 e1, by simp [Res.isOk]⟩
      · exact ⟨framesExt_trans e0 e1, by simp [Res.isOk]⟩
      · exact ⟨framesExt_trans e0 e1, by simp [Res.isOk]⟩
  | whileGo c b acc res =>
      simp only [run] at h
      split at h
      · rcases hr : run k s (.stmt b) with ⟨r₁, s₁⟩
        rw [hr] at h
        obtain ⟨e1, v1⟩ := ih s (.stmt b) r₁ s₁ hr
        rcases r₁ with o | m | m | _
        · simp only [] at h
          split at h
          · cases h; exact ⟨e1, fun _ => v1 rfl⟩
          · rcases hr2 : run k s₁ (.expr c) with ⟨r₂, s₂⟩
            rw [hr2] at h
            obtain ⟨e2, v2⟩ := ih s₁ (.expr c) r₂ s₂ hr2
            rcases r₂ with o₂ | m | m | _
            · obtain ⟨e3, v3⟩ := ih s₂ (.whileGo c b o₂ o) r s' h
              exact ⟨framesExt_trans e1 (framesExt_trans e2 e3),
                fun ho => ((v3 ho).trans (v2 rfl)).trans (v1 rfl)⟩
            · cases h; exact ⟨framesExt_trans e1 e2, by simp [Res.isOk]⟩
            · cases h; exact ⟨framesExt_trans e1 e2, by simp [Res.isOk]⟩
            · cases h; exact ⟨framesExt_trans e1 e2, by simp [Res.isOk]⟩
        · cases h; exact ⟨e1, by simp [Res.isOk]⟩
        · cases h; exact ⟨e1, by simp [Res.isOk]⟩
        · cases h; exact ⟨e1, by simp [Res.isOk]⟩
      · cases h
        exact ⟨framesExt_refl s, fun _ => rfl⟩
  | args l =>
      cases l with
      | nil =>
          simp only [run] at h
          cases h
          exact ⟨framesExt_refl s, fun _ => rfl⟩
      | cons e t =>
          simp only [run] at h
          rcases hr : run k s (.expr e) with ⟨r₁, s₁⟩
          rw [hr] at h
          obtain ⟨e1, v1⟩ := ih s (.expr e) r₁ s₁ hr
          rcases r₁ with o | m | m | _
          · rcases o with _ | v
            · cases h; exact ⟨e1, by simp [Res.isOk]⟩
            · simp only [] at h
              rcases ha : run k s₁ (.args t) with ⟨r₂, s₂⟩
              rw [ha] at h
              obtain ⟨e2, v2⟩ := ih s₁ (.args t) r₂ s₂ ha
              rcases r₂ with vs | m | m | _
              all_goals cases h
              · exact ⟨framesExt_trans e1 e2,
                  fun _ => (v2 rfl).trans (v1 rfl)⟩
              · exact ⟨framesExt_trans e1 e2, by simp [Res.isOk]⟩
              · exact ⟨framesExt_trans e1 e2, by simp [Res.isOk]⟩
              · exact ⟨framesExt_trans e1 e2, by simp [Res.isOk]⟩
          · cases h; exact ⟨e1, by simp [Res.isOk]⟩
          · cases h; exact ⟨e1, by simp [Res.isOk]⟩
          · cases h; exact ⟨e1, by simp [Res.isOk]⟩
  | callFun f argv =>
      simp only [run] at h
      split at h
      · cases h
        exact ⟨framesExt_refl s, by simp [Res.isOk]⟩
      · next ctx _ =>
        split at h
        · rcases hr : run k (allocFrame s
              ⟨paramBindings f.params argv, some ctx⟩).2
              (.execBlock f.body (some (allocFrame s
                ⟨paramBindings f.params argv, some ctx⟩).1)) with ⟨r₁, s₂⟩
          rw [hr] at h
          obtain ⟨e1, v1⟩ := ih _ _ r₁ s₂ hr
          have ea : FramesExt s (allocFrame s
              ⟨paramBindings f.params argv, some ctx⟩).2 :=
            framesExt_alloc s _
          rcases r₁ with o | m | m | _
          · simp only [] at h
            split at h
            · split at h
              · split at h
                · cases h
                  exact ⟨framesExt_trans ea e1,
                    fun _ => (v1 rfl).trans (alloc_env ..)⟩
                · cases h
                  exact ⟨framesExt_trans ea e1, by simp [Res.isOk]⟩
              · cases h
                exact ⟨framesExt_trans ea e1, by simp [Res.isOk]⟩
            · split at h
              all_goals cases h
              all_goals
                exact ⟨framesExt_trans ea e1,
                  fun _ => (v1 rfl).trans (alloc_env ..)⟩
          · cases h; exact ⟨framesExt_trans ea e1, by simp [Res.isOk]⟩
          · cases h; exact ⟨framesExt_trans ea e1, by simp [Res.isOk]⟩
          · cases h; exact ⟨framesExt_trans ea e1, by simp [Res.isOk]⟩
        · cases h
          exact ⟨framesExt_refl s, by simp [Res.isOk]⟩
  | callClass c argv =>
      simp only [run] at h
      split at h
      · next initf _ =>
          rcases hr : run k (bindFunction initf (.mk c .nil) s).2
              (.callFun (bindFunction initf (.mk c .nil) s).1 argv)
              with ⟨r₁, s₁⟩
          rw [hr] at h
          cases h
          obtain ⟨e1, v1⟩ := ih _ _ _ _ hr
          refine ⟨framesExt_trans (bindFunction_inv _ _ s).1 e1,
            fun ho => ?_⟩
          rw [v1 ho]
          exact (bindFunction_inv _ _ s).2
      · cases h
        exact ⟨framesExt_refl s, by simp [Res.isOk]⟩
      · cases h
        exact ⟨framesExt_refl s, by simp [Res.isOk]⟩
      · split at h
        all_goals cases h
        all_goals exact ⟨framesExt_refl s, fun _ => rfl⟩

/-- The store/environment invariant at every fuel level: evaluation only
grows the arena (preserving `enclosing` pointers of existing frames), and a
non-error outcome leaves the interpreter's current environment exactly
where it started. -/
theorem runInv_all (k : Nat) : RunInv k := by
  induction k with
  | zero =>
      intro s j r s' h
      simp only [run] at h
      cases h
      exact ⟨framesExt_refl s, by simp [Res.isOk]⟩
  | succ k ih =>
      intro s j r s' h
      exact runInv_succ_rest k ih s j r s' h
        (fun s e r s' h => runInv_succ_expr k ih s e r s' h)
        (fun s st r s' h => runInv_succ_stmt k ih s st r s' h)


/-- C2 (counterexample): `true == 1` — a cross-kind pair with no `nil`
side — is the runtime error `Operands must be of the same type`, not the
`Bool` `false` the claim promises; and even `nil != nil` is that same
runtime error rather than `false`. -/
theorem eqeq_cross_kind_counterexample :
    Operator.eqeq (.literal (.bool true)) (.literal (.number (ratInt 1))) =
      .err "Operands must be of the same type" ∧
    Operator.bangEqualOp (.literal .nil) (.literal .nil) =
      .err "Operands must be of the same type" :=
  ⟨rfl, rfl⟩

/-- C2 (amended): `==` succeeds with a `Bool` exactly on the pairs
`eqComparable` covers — same-kind literals, `nil` against anything, two
functions (by name and parameter list), two classes (by name) — and every
other pair (instances included) is the error
`Operands must be of the same type`; `!=` succeeds only on same-kind
`Bool`/`Number`/`Str` pairs (even `nil != nil` errors). -/
theorem equality_partial_characterization :
    (∀ l r : Expr, Operator.eqeq l r =
      match eqComparable l r with
      | some b => .ok (some (.literal (.bool b)))
      | none => .err "Operands must be of the same type") ∧
    (∀ l r : Expr, Operator.bangEqualOp l r =
      match neqComparable l r with
      | some b => .ok (some (.literal (.bool b)))
      | none => .err "Operands must be of the same type") := by
  constructor <;> intro l r <;>
    cases l <;> cases r <;>
      (try casesm* Literal, FunctionV, ClassV) <;> rfl

/-- C7: the statement `Parser::for_stmt` assembles from the parsed
initializer, condition, increment and body is exactly the desugared
`{ init; while (cond) { body; inc; } }` form the spec describes (with
`true` for an omitted condition and the wrappers omitted for absent
components), and the two are interchangeable under evaluation. -/
theorem for_desugars_to_while_block :
    (∀ (i : Option Stmt) (c inc : Option Expr) (b : Stmt),
      forDesugar i c inc b = forDesugarSpec i c inc b) ∧
    (∀ (i : Option Stmt) (c inc : Option Expr) (b : Stmt) (k : Nat)
      (s : State),
      run k s (.stmt (forDesugar i c inc b)) =
        run k s (.stmt (forDesugarSpec i c inc b))) := by
  have h : ∀ (i : Option Stmt) (c inc : Option Expr) (b : Stmt),
      forDesugar i c inc b = forDesugarSpec i c inc b := by
    intro i c inc b
    cases i <;> cases c <;> cases inc <;> rfl
  exact ⟨h, fun i c inc b k s => by rw [h]⟩

/-- A value that is not a `Bool` literal fails the
`while let Some(Bool(true))` test. -/
theorem isTrueLit_of_non_bool {v : Expr}
    (hv : ∀ bb : Bool, v ≠ .literal (.bool bb)) :
    isTrueLit (some v) = false := by
  cases v with
  | literal l =>
      cases l with
      | bool b => exact absurd rfl (hv b)
      | number n => rfl
      | str s => rfl
      | nil => rfl
  | var t => rfl
  | assign t e => rfl
  | grouping e => rfl
  | unary o e => rfl
  | binary a o c => rfl
  | logical a o c => rfl
  | call a p c => rfl
  | fn f => rfl
  | inst i => rfl
  | cls c => rfl
  | get a n => rfl
  | set a n v => rfl
  | this t => rfl
  | sup a m => rfl

/-- C10: when a `while` condition evaluates to any non-`Bool` value, the
loop body (arbitrary here) is executed zero times and the statement
completes with `Ok(None)` — no runtime error and no truthiness coercion;
the state is exactly the state after the one condition evaluation. -/
theorem while_non_bool_condition_skips_body (k : Nat) (s : State)
    (c : Expr) (b : Stmt) (v : Expr) (s₁ : State)
    (hc : run (k + 1) s (.expr c) = (.ok (some v), s₁))
    (hv : ∀ bb : Bool, v ≠ .literal (.bool bb)) :
    run (k + 2) s (.stmt (.whileS c b)) = (.ok none, s₁) := by
  have h2 : run (k + 2) s (.stmt (.whileS c b)) =
      run (k + 1) s₁ (.whileGo c b (some v) none) := by
    simp only [run]
    rw [hc]
  rw [h2]
  simp only [run]
  rw [isTrueLit_of_non_bool hv]
  simp

/-- C10 (witness): `while (0) body` runs the body zero times. -/
theorem while_non_bool_condition_skips_body_witness :
    run 2 initState
      (.stmt (.whileS (.literal (.number (ratInt 0)))
        (.print (.literal .nil)))) = (.ok none, initState) :=
  while_non_bool_condition_skips_body 0 initState
    (.literal (.number (ratInt 0))) (.print (.literal .nil))
    (.literal (.number (ratInt 0))) initState rfl
    (fun bb h => by cases h)

/-- C9: a `Set` whose object expression is neither a plain variable nor
`this` (`setTargetName` is `none`) panics with `Invalid object` — after the
object has evaluated to a valid instance and the value has evaluated — and
prints the `Invalid object:` diagnostic, instead of returning an error
value. -/
theorem set_chained_target_panics (k : Nat) (s : State) (obj : Expr)
    (nameT : Token) (valE : Expr) (i : InstanceV) (s₁ : State) (w : Expr)
    (s₂ : State)
    (htarget : setTargetName obj = none)
    (hobj : run k s (.expr obj) = (.ok (some (.inst i)), s₁))
    (hval : run k s₁ (.expr valE) = (.ok (some w), s₂)) :
    run (k + 1) s (.expr (.set obj nameT valE)) =
      (.panicked "Invalid object",
        { s₂ with output := s₂.output ++
            ["Invalid object: " ++ debugExpr obj] }) := by
  simp only [run]
  rw [hobj]
  simp only []
  rw [hval]
  simp only []
  rw [htarget]

/-- C9 (witness): evaluating `a.b.c = 1` — with `a` bound to an instance
whose field `b` is itself an instance — aborts with the `Invalid object`
panic. -/
theorem set_chained_target_panics_witness :
    run 3 chainedSetState (.expr chainedSetExpr) =
      (.panicked "Invalid object",
        { (run 2 chainedSetState (.expr chainedObj)).2 with
            output := ((run 2 chainedSetState (.expr chainedObj)).2).output
              ++ ["Invalid object: " ++ debugExpr chainedObj] }) :=
  set_chained_target_panics 2 chainedSetState chainedObj (identTok "c")
    (.literal (.number (ratInt 1))) instInner
    (run 2 chainedSetState (.expr chainedObj)).2
    (.literal (.number (ratInt 1)))
    (run 2 chainedSetState (.expr chainedObj)).2
    rfl rfl rfl


/-- C1 (counterexample): `print 1 + 2 * 3;` writes the derived-`Debug` line
`Literal(Number(7.0))`, not the claimed canonical line `7`. -/
theorem print_arithmetic_counterexample :
    run 9 initState (.stmt arithPrintProg) =
      (.ok none, { initState with output := ["Literal(Number(7.0))"] }) ∧
    ("Literal(Number(7.0))" : String) ≠ "7" :=
  ⟨rfl, by decide⟩

/-- C1 (amended): `visit_print` writes exactly one line per print — the
`{:?}` (derived `Debug`) rendering of the value: `Nil` prints
`Literal(Nil)`, Bools print `Literal(Bool(true))` / `Literal(Bool(false))`,
an integer-valued number `n` prints `Literal(Number(n.0))` (e.g.
`Literal(Number(7.0))`), and a string prints `Literal(Str("s"))` with
quotes; `print 1 + 2 * 3;` writes exactly the line
`Literal(Number(7.0))`. -/
theorem print_writes_debug_rendering :
    (∀ (k : Nat) (s : State) (e : Expr) (v : Option Expr) (s' : State),
      run k s (.expr e) = (.ok v, s') →
      run (k + 1) s (.stmt (.print e)) =
        (.ok none, { s' with output := s'.output ++ [printLine v] })) ∧
    printLine (some (.literal .nil)) = "Literal(Nil)" ∧
    printLine (some (.literal (.bool true))) = "Literal(Bool(true))" ∧
    printLine (some (.literal (.bool false))) = "Literal(Bool(false))" ∧
    printLine (some (.literal (.number (ratInt 7)))) =
      "Literal(Number(7.0))" ∧
    printLine (some (.literal (.str "ok"))) = "Literal(Str(\"ok\"))" ∧
    run 9 initState (.stmt arithPrintProg) =
      (.ok none, { initState with output := ["Literal(Number(7.0))"] }) := by
  refine ⟨?_, rfl, rfl, rfl, rfl, rfl, rfl⟩
  intro k s e v s' h
  simp only [run]
  rw [h]

/-- C1 (witness): printing the literal `nil` appends the line
`printLine (some nil)` (= `Literal(Nil)`). -/
theorem print_writes_debug_rendering_witness :
    run 2 initState (.stmt (.print (.literal .nil))) =
      (.ok none, { initState with output :=
        initState.output ++ [printLine (some (.literal .nil))] }) :=
  print_writes_debug_rendering.1 1 initState (.literal .nil)
    (some (.literal .nil)) initState rfl

/-- A value other than the `true` Bool makes `or` fall through to its right
operand. -/
theorem logicalKeepsLeft_orOp_none {la : Option Expr}
    (h : la ≠ some (.literal (.bool true))) :
    logicalKeepsLeft .orOp la = none := by
  rcases la with _ | v
  · rfl
  · cases v <;> try rfl
    rename_i l
    cases l <;> try rfl
    rename_i b
    cases b
    · rfl
    · exact absurd rfl h

/-- A value other than the `false` Bool or `Nil` makes `and` fall through
to its right operand. -/
theorem logicalKeepsLeft_andOp_none {la : Option Expr}
    (hf : la ≠ some (.literal (.bool false)))
    (hn : la ≠ some (.literal .nil)) :
    logicalKeepsLeft .andOp la = none := by
  rcases la with _ | v
  · rfl
  · cases v <;> try rfl
    rename_i l
    cases l <;> try rfl
    · rename_i b
      cases b
      · exact absurd rfl hf
      · rfl
    · exact absurd rfl hn

/-- C5 (amended): `visit_logical` short-circuits — `or` returns the left
operand exactly when it is the `true` Bool and otherwise evaluates and
returns the right operand as-is; `and` returns the left operand exactly
when it is the `false` Bool or `nil` and otherwise evaluates and returns
the right operand as-is — so the produced value keeps its original kind;
but `print nil or "ok";` writes the `Debug` line `Literal(Str("ok"))`, not
`ok`. -/
theorem logical_short_circuit_amended :
    (∀ (k : Nat) (s : State) (l r : Expr) (s₁ : State),
      run k s (.expr l) = (.ok (some (.literal (.bool true))), s₁) →
      run (k + 1) s (.expr (.logical l .orOp r)) =
        (.ok (some (.literal (.bool true))), s₁)) ∧
    (∀ (k : Nat) (s : State) (l r : Expr) (la : Option Expr)
      (s₁ : State) (ra : Option Expr) (s₂ : State),
      run k s (.expr l) = (.ok la, s₁) →
      la ≠ some (.literal (.bool true)) →
      run k s₁ (.expr r) = (.ok ra, s₂) →
      run (k + 1) s (.expr (.logical l .orOp r)) = (.ok ra, s₂)) ∧
    (∀ (k : Nat) (s : State) (l r : Expr) (s₁ : State),
      run k s (.expr l) = (.ok (some (.literal (.bool false))), s₁) →
      run (k + 1) s (.expr (.logical l .andOp r)) =
        (.ok (some (.literal (.bool false))), s₁)) ∧
    (∀ (k : Nat) (s : State) (l r : Expr) (s₁ : State),
      run k s (.expr l) = (.ok (some (.literal .nil)), s₁) →
      run (k + 1) s (.expr (.logical l .andOp r)) =
        (.ok (some (.literal .nil)), s₁)) ∧
    (∀ (k : Nat) (s : State) (l r : Expr) (la : Option Expr)
      (s₁ : State) (ra : Option Expr) (s₂ : State),
      run k s (.expr l) = (.ok la, s₁) →
      la ≠ some (.literal (.bool false)) →
      la ≠ some (.literal .nil) →
      run k s₁ (.expr r) = (.ok ra, s₂) →
      run (k + 1) s (.expr (.logical l .andOp r)) = (.ok ra, s₂)) ∧
    run 9 initState (.stmt orPrintProg) =
      (.ok none, { initState with output := ["Literal(Str(\"ok\"))"] }) := by
  refine ⟨?_, ?_, ?_, ?_, ?_, rfl⟩
  · intro k s l r s₁ hl
    simp only [run]
    rw [hl]
    rfl
  · intro k s l r la s₁ ra s₂ hl hne hr
    simp only [run]
    rw [hl]
    simp only []
    rw [logicalKeepsLeft_orOp_none hne]
    simp only []
    rw [hr]
  · intro k s l r s₁ hl
    simp only [run]
    rw [hl]
    rfl
  · intro k s l r s₁ hl
    simp only [run]
    rw [hl]
    rfl
  · intro k s l r la s₁ ra s₂ hl hf hn hr
    simp only [run]
    rw [hl]
    simp only []
    rw [logicalKeepsLeft_andOp_none hf hn]
    simp only []
    rw [hr]

/-- C5 (counterexample): `print nil or "ok";` writes
`Literal(Str("ok"))`, not the claimed `ok`. -/
theorem logical_print_counterexample :
    run 9 initState (.stmt orPrintProg) =
      (.ok none, { initState with output := ["Literal(Str(\"ok\"))"] }) ∧
    ("Literal(Str(\"ok\"))" : String) ≠ "ok" :=
  ⟨rfl, by decide⟩

/-- C5 (witness): `nil or "ok"` evaluates to the string `"ok"` itself. -/
theorem logical_short_circuit_amended_witness :
    run 2 initState
      (.expr (.logical (.literal .nil) .orOp (.literal (.str "ok")))) =
      (.ok (some (.literal (.str "ok"))), initState) :=
  logical_short_circuit_amended.2.1 1 initState (.literal .nil)
    (.literal (.str "ok")) (some (.literal .nil)) initState
    (some (.literal (.str "ok"))) initState rfl (by simp) rfl


/-- C3 (counterexample): in `{ fun g() { x; } g(); }` the body of `g` fails
with `Undefined variable 'x'.`; `execute_block` returns early without
restoring, so after `visit_block`'s final `drop_environment` the current
environment is the call frame's parent (frame 1), not the frame that was
current before the block (frame 0). -/
theorem block_error_env_not_restored :
    (run 12 blockErrState (.stmt blockErrProg)).1 =
      .err "Undefined variable 'x'." ∧
    (run 12 blockErrState (.stmt blockErrProg)).2.env = some 1 ∧
    blockErrState.env = some 0 :=
  ⟨rfl, rfl, rfl⟩

/-- C3 (amended): `visit_block` creates a child environment, runs the
statements in it, and propagates any `Return` carrier upward unchanged;
after every `Ok` outcome (normal completion or `Return` carrier) the
current environment equals the one current before the block.  On a runtime
error, however, `execute_block` returns early without restoring and
`visit_block`'s `drop_environment` pops from whatever environment the
failing statement left current, so the environment is not restored on the
error path. -/
theorem block_restores_env_amended :
    (∀ (k : Nat) (s : State) (l : StmtList) (r : Option Stmt) (s' : State),
      run k s (.stmt (.block l)) = (.ok r, s') → s'.env = s.env) ∧
    (∀ (k : Nat) (s : State) (l : StmtList) (r : Option Stmt)
      (s₂ s₃ : State),
      run k (s.newEnvironment none)
        (.execBlock l (s.newEnvironment none).env) = (.ok r, s₂) →
      s₂.dropEnvironment = some s₃ →
      run (k + 1) s (.stmt (.block l)) =
        (match asReturn r with
         | some (kw, v) => (.ok (some (.ret kw v)), s₃)
         | none => (.ok none, s₃))) ∧
    (∀ (k : Nat) (s : State) (l : StmtList) (m : String) (s₂ s₃ : State),
      run k (s.newEnvironment none)
        (.execBlock l (s.newEnvironment none).env) = (.err m, s₂) →
      s₂.dropEnvironment = some s₃ →
      run (k + 1) s (.stmt (.block l)) = (.err m, s₃)) := by
  refine ⟨?_, ?_, ?_⟩
  · intro k s l r s' h
    exact (runInv_all k s (.stmt (.block l)) (.ok r) s' h).2 rfl
  · intro k s l r s₂ s₃ h1 h2
    simp only [run]
    rw [h1]
    simp only []
    rw [h2]
  · intro k s l m s₂ s₃ h1 h2
    simp only [run]
    rw [h1]
    simp only []
    rw [h2]

/-- C3 (witness): the block `{ nil; }` completes normally and leaves the
environment it started with. -/
theorem block_restores_env_amended_witness :
    (run 6 initState (.stmt blockOkProg)).2.env = initState.env :=
  block_restores_env_amended.1 6 initState
    (.cons (.expression (.literal .nil)) .nil) none
    (run 6 initState (.stmt blockOkProg)).2 rfl

/-- C4: `Function::execute_call`, when the body completes without a runtime
error: an `is_initializer` function returns the value bound to `this` in
its captured context — whatever `Return` carrier (if any) the body
produced — and a non-initializer function whose body yields no `Return`
carrier returns `Nil`. -/
theorem initializer_call_returns_this :
    (∀ (k : Nat) (s : State) (f : FunctionV) (argv : List Expr) (ctx : Nat)
      (v : Expr) (res : Option Stmt) (s₂ : State) (cfr : Frame),
      f.isInit = true →
      f.context = some ctx →
      argv.length = f.params.length →
      run k (allocFrame s ⟨paramBindings f.params argv, some ctx⟩).2
        (.execBlock f.body
          (some (allocFrame s ⟨paramBindings f.params argv, some ctx⟩).1)) =
        (.ok res, s₂) →
      s₂.getFrame ctx = some cfr →
      cfr.retrieve "this" = some v →
      run (k + 1) s (.callFun f argv) = (.ok v, s₂)) ∧
    (∀ (k : Nat) (s : State) (f : FunctionV) (argv : List Expr) (ctx : Nat)
      (res : Option Stmt) (s₂ : State),
      f.isInit = false →
      f.context = some ctx →
      argv.length = f.params.length →
      run k (allocFrame s ⟨paramBindings f.params argv, some ctx⟩).2
        (.execBlock f.body
          (some (allocFrame s ⟨paramBindings f.params argv, some ctx⟩).1)) =
        (.ok res, s₂) →
      asReturn res = none →
      run (k + 1) s (.callFun f argv) = (.ok (.literal .nil), s₂)) := by
  constructor
  · intro k s f argv ctx v res s₂ cfr hInit hctx har hrun hget hthis
    simp only [run]
    rw [hctx]
    try simp only []
    rw [if_pos har]
    try simp only []
    rw [hrun]
    try simp only []
    rw [hInit]
    try simp only [if_true]
    rw [hget]
    try simp only []
    rw [hthis]
  · intro k s f argv ctx res s₂ hInit hctx har hrun hret
    simp only [run]
    rw [hctx]
    try simp only []
    rw [if_pos har]
    try simp only []
    rw [hrun]
    try simp only []
    rw [hInit]
    try simp only [Bool.false_eq_true, if_false]
    rw [hret]

/-- C4 (witness): calling the bound empty-body initializer `initFn` (whose
context frame 1 maps `this` to an instance of `A`) returns that
instance. -/
theorem initializer_call_returns_this_witness :
    run 3 boundCallState (.callFun initFn []) =
      (.ok (.inst instInner),
        ⟨[⟨[], none⟩, ⟨[("this", .inst instInner)], some 0⟩, ⟨[], some 1⟩],
          some 0, [], 1, []⟩) :=
  initializer_call_returns_this.1 2 boundCallState initFn [] 1
    (.inst instInner) none
    ⟨[⟨[], none⟩, ⟨[("this", .inst instInner)], some 0⟩, ⟨[], some 1⟩],
      some 0, [], 1, []⟩
    ⟨[("this", .inst instInner)], some 0⟩
    rfl rfl rfl rfl rfl rfl


/-- C6: the resolver rejects a variable read whose name is bound in a
non-global scope with its defined-flag still `false` — the variable's own
initializer is being resolved — with exactly
`Error at '<name>': Can't read local variable in its own initializer.`,
leaving the resolver state unchanged; in particular
`var a = 1; { var a = a; }` produces that error for `a`. -/
theorem resolver_self_initializer_error :
    (∀ (k : Nat) (rs : RState) (t : Token),
      (rs.scopes.length != 0) = true →
      rs.containsKeyR t.lexeme = true →
      rs.getNonGlobal t.lexeme = some false →
      runR (k + 1) rs (.rexpr (.var t)) =
        (.err ("Error at '" ++ t.lexeme ++
          "': Can't read local variable in its own initializer."), rs)) ∧
    (runR 9 rInit (.rstmts selfInitProg)).1 =
      .err "Error at 'a': Can't read local variable in its own initializer." := by
  refine ⟨?_, rfl⟩
  intro k rs t h1 h2 h3
  simp only [runR]
  rw [h1, h2, h3]
  rfl

/-- C6 (witness): with an inner scope binding `a` with flag `false` above
the global scope, reading `a` is the self-initializer error. -/
theorem resolver_self_initializer_error_witness :
    runR 1 ⟨[[("a", false)], []], [], .noneF, .noneC⟩
      (.rexpr (.var (identTok "a"))) =
      (.err "Error at 'a': Can't read local variable in its own initializer.",
       ⟨[[("a", false)], []], [], .noneF, .noneC⟩) :=
  resolver_self_initializer_error.1 0
    ⟨[[("a", false)], []], [], .noneF, .noneC⟩ (identTok "a") rfl rfl rfl

/-- `VM::binary_op` on a stack ending in two values of mismatched kinds:
pop both, report the type error (printing the message and clearing the
stack), and hand an `Ok` state back to the caller. -/
theorem binaryOp_type_err (op : OpCode) (st : VMState) (l : List Value)
    (a b : Value) (hs : st.stack = l ++ [a, b])
    (hn : (a.isNumber && b.isNumber) = false)
    (hstr : (a.isString && b.isString) = false) :
    binaryOp op st =
      .ok (st.runtimeError "Operands must be two numbers or two strings.") := by
  have hab : l ++ [a, b] = (l ++ [a]) ++ [b] := by simp
  unfold binaryOp
  rw [if_neg (by rw [hs]; simp)]
  unfold VMState.popV
  rw [hs, hab, List.getLast?_concat, List.dropLast_concat]
  simp only []
  rw [List.getLast?_concat, List.dropLast_concat]
  simp only []
  rw [hn]
  simp only [Bool.false_eq_true, if_false]
  rw [hstr]
  simp only [Bool.false_eq_true, if_false]
  rfl

/-- C8 (amended): `GetGlobal` on an undefined name reports the error
(clearing the stack) and halts the run with `RuntimeError`; but
`binary_op` failures do not halt: on a stack underflow or an operand type
error the VM reports the error, clears the stack, and *continues* the
dispatch loop at the next opcode. -/
theorem vm_error_handling_amended :
    (∀ (k : Nat) (st : VMState) (name : String),
      st.code.get? st.ip = some (.getGlobal name) →
      lookupGlobal st.globals name = none →
      runVM (k + 1) st =
        (.done .runtimeError,
         ({ st with ip := st.ip + 1 }).runtimeError
           ("Undefined variable (get) '" ++ name ++ "'."))) ∧
    (∀ (k : Nat) (st : VMState) (op : OpCode),
      isBinaryArith op = true →
      st.code.get? st.ip = some op →
      st.stack.length < 2 →
      runVM (k + 1) st =
        runVM k (({ st with ip := st.ip + 1 }).runtimeError
          "Stack underflow")) ∧
    (∀ (k : Nat) (st : VMState) (op : OpCode) (l : List Value)
      (a b : Value),
      isBinaryArith op = true →
      st.code.get? st.ip = some op →
      st.stack = l ++ [a, b] →
      (a.isNumber && b.isNumber) = false →
      (a.isString && b.isString) = false →
      runVM (k + 1) st =
        runVM k (({ st with ip := st.ip + 1 }).runtimeError
          "Operands must be two numbers or two strings.")) := by
  refine ⟨?_, ?_, ?_⟩
  · intro k st name hcode hlook
    simp only [runVM]
    rw [hcode]
    simp only []
    rw [hlook]
  · intro k st op hop hcode hlen
    simp only [runVM]
    rw [hcode]
    have hbo : binaryOp op { st with ip := st.ip + 1 } =
        .ok (({ st with ip := st.ip + 1 }).runtimeError "Stack underflow") := by
      unfold binaryOp
      rw [if_pos hlen]
    cases op <;> simp only [isBinaryArith, Bool.false_eq_true] at hop <;>
      (simp only []; rw [hbo]; try rfl)
  · intro k st op l a b hop hcode hs hn hstr
    simp only [runVM]
    rw [hcode]
    have hbo := binaryOp_type_err op { st with ip := st.ip + 1 } l a b hs hn hstr
    cases op <;> simp only [isBinaryArith, Bool.false_eq_true] at hop <;>
      (simp only []; rw [hbo]; try rfl)

/-- C8 (counterexample): the chunk `1; true; +; return` hits a binary
operand type error yet the run continues past it and terminates with
`InterpretOk`, having printed the error and cleared the stack — it does
not halt with `RuntimeError`. -/
theorem vm_type_error_continues :
    runVM 4 vmTypeErrState =
      (.done .interpOk,
       ⟨[.constant (.number (ratInt 1)), .constant (.bool true), .add, .ret],
         4, [], [],
         ["Operands must be two numbers or two strings."]⟩) ∧
    InterpretResult.interpOk ≠ InterpretResult.runtimeError :=
  ⟨rfl, by decide⟩

/-- C8 (witness): `GetGlobal "x"` with no globals halts with
`RuntimeError` and the `Undefined variable (get) 'x'.` report. -/
theorem vm_error_handling_amended_witness :
    runVM 1 vmUndefGlobalState =
      (.done .runtimeError,
       ⟨[.getGlobal "x"], 1, [], [], ["Undefined variable (get) 'x'."]⟩) :=
  vm_error_handling_amended.1 0 vmUndefGlobalState "x" rfl rfl

end Lors
